import Mathlib

/-!
Verification development for the audio-visualizer feature-extraction engine
and layer lifecycle.

The source has two feature-extractor variants: the rich one (fields `rms01`,
`rmsPeak01`, `energy`, `energyPeak01`, `bins`, `binsLog`, `binsLogRaw`,
`bands`, `bandsRaw`, `centroidHz`, `rolloffHz`) from the file defining
`createFeatureExtractor` with options `logBins/fMin/fMax/...`, and the
simpler `src/engine/features.ts` variant whose `updateOnset` implements the
z-score-with-hysteresis onset detector that the spec designates canonical.

Two embeddings of the rich extractor are given:

* an idealized real-number model (`extractR` and its stage functions), used
  to prove range/shape/monotonicity properties under the hypothesis that all
  inputs are finite reals; Float32 rounding is not modelled;
* a JavaScript-number model (`extractJs` over `JsVal`), which represents
  NaN and the infinities explicitly with ECMAScript arithmetic rules, used
  to settle the claims about non-finite inputs.

The layer-registry/lifecycle code (`createStateFromControls`, `loadState`,
the `initLayers` guard of the render host) is embedded computably.
-/

open scoped Classical

noncomputable section

namespace AV

/-- Configuration record of `createFeatureExtractor` (rich variant).
Fields mirror `FeatureExtractorOptions`; `k0,k1,k2` are the three entries of
`spatialKernel`. -/
structure FeatureCfg where
  logBins : ℕ
  fMin : ℝ
  fMax : ℝ
  dbMin : ℝ
  dbMax : ℝ
  rmsDbMin : ℝ
  rmsDbMax : ℝ
  dbGamma : ℝ
  spatialSmooth : Bool
  k0 : ℝ
  k1 : ℝ
  k2 : ℝ
  baselineTauMs : ℝ
  deadband : ℝ
  knee : ℝ
  attackMs : ℝ
  decayMs : ℝ
  onsetWindowMs : ℝ
  onsetK : ℝ
  peakDecayMs : ℝ

/-- The `DEFAULTS` object of the source. -/
def DEFAULTS : FeatureCfg where
  logBins := 128
  fMin := 20
  fMax := 8000
  dbMin := -100
  dbMax := -30
  rmsDbMin := -60
  rmsDbMax := -6
  dbGamma := 1.3
  spatialSmooth := true
  k0 := 0.25
  k1 := 0.5
  k2 := 0.25
  baselineTauMs := 1500
  deadband := 0.02
  knee := 0.2
  attackMs := 35
  decayMs := 150
  onsetWindowMs := 600
  onsetK := 1.5
  peakDecayMs := 3000

/-- `clamp01(x) { return x < 0 ? 0 : x > 1 ? 1 : x; }` -/
def clamp01 (x : ℝ) : ℝ := if x < 0 then 0 else if x > 1 then 1 else x

/-- `mapDb01(xDb, minDb, maxDb, gamma) = Math.pow(clamp01((xDb-minDb)/(maxDb-minDb)), gamma)`.
The base of the power is clamped into [0,1], so `Real.rpow` agrees with
`Math.pow` on every reachable argument. -/
def mapDb01 (xDb minDb maxDb gamma : ℝ) : ℝ :=
  (clamp01 ((xDb - minDb) / (maxDb - minDb))) ^ gamma

/-- `expCoeff(dtMs, tauMs) = Math.exp(-dtMs / Math.max(1, tauMs))` -/
def expCoeff (dtMs tauMs : ℝ) : ℝ := Real.exp (-dtMs / max 1 tauMs)

/-- `smooth3`: circular 3-tap convolution `out[i] = a*src[i-1] + b*src[i] + c*src[i+1]`
with wraparound indices `(i-1+n)%n` and `(i+1)%n`. -/
def smooth3 (src : List ℝ) (a b c : ℝ) : List ℝ :=
  let n := src.length
  (List.range n).map fun i =>
    a * src.getD ((i + n - 1) % n) 0 + b * src.getD i 0 + c * src.getD ((i + 1) % n) 0

/-- `hzToFftIndex(hz, fftLen, sampleRate) = (clamp(hz, 0, nyquist)/nyquist)*(fftLen-1)` -/
def hzToFftIndex (hz : ℝ) (fftLen : ℕ) (sampleRate : ℝ) : ℝ :=
  let nyquist := sampleRate * 0.5
  (max 0 (min nyquist hz) / nyquist) * ((fftLen : ℝ) - 1)

/-- The clamped top frequency of the log mapping: `fMax = Math.min(cfg.fMax, ny)`. -/
def clampFMax (cfg : FeatureCfg) (sampleRate : ℝ) : ℝ :=
  min cfg.fMax (sampleRate * 0.5)

/-- The clamped bottom frequency: `fMin = Math.max(1, Math.min(cfg.fMin, fMax - 1))`. -/
def clampFMin (cfg : FeatureCfg) (sampleRate : ℝ) : ℝ :=
  max 1 (min cfg.fMin (clampFMax cfg sampleRate - 1))

/-- Center frequency of output log-bin `i` out of `n`:
`hz = fMin * Math.pow(fMax / fMin, i / (n - 1))`. -/
def hzOfBin (fMinL fMaxL : ℝ) (n i : ℕ) : ℝ :=
  fMinL * (fMaxL / fMinL) ^ ((i : ℝ) / ((n : ℝ) - 1))

/-- Step 1 of `extract`: resample the dB spectrum to `logBins` log-spaced bins
by linear interpolation between the two nearest raw bins
(`i0 = Math.max(0, Math.min(fftN-2, Math.floor(fftIdx)))`, `frac = fftIdx - i0`).
Out-of-range reads cannot occur for `fftN ≥ 2`; the model is stated for that
case (a 1-element spectrum makes JS read `fftDb[1] === undefined`, i.e. NaN,
which the companion `JsVal` model represents). -/
def resampleLogBins (cfg : FeatureCfg) (fft : List ℝ) (sampleRate : ℝ) : List ℝ :=
  let fMaxL := clampFMax cfg sampleRate
  let fMinL := clampFMin cfg sampleRate
  (List.range cfg.logBins).map fun i =>
    let fftIdx := hzToFftIndex (hzOfBin fMinL fMaxL cfg.logBins i) fft.length sampleRate
    let i0 : ℤ := max 0 (min ((fft.length : ℤ) - 2) ⌊fftIdx⌋)
    let frac : ℝ := fftIdx - (i0 : ℝ)
    fft.getD i0.toNat 0 * (1 - frac) + fft.getD (i0.toNat + 1) 0 * frac

/-- Steps 2–3 of `extract`: optional spatial smoothing in the dB domain, then
dB→unit mapping with gamma compression. -/
def mappedBinsOf (cfg : FeatureCfg) (fft : List ℝ) (sampleRate : ℝ) : List ℝ :=
  let out := resampleLogBins cfg fft sampleRate
  let sm := if cfg.spatialSmooth then smooth3 out cfg.k0 cfg.k1 cfg.k2 else out
  sm.map fun v => mapDb01 v cfg.dbMin cfg.dbMax cfg.dbGamma

/-- `if (!arr || arr.length !== n) arr = new Float32Array(n)`: reallocate a
state array when its length does not match (a fresh Float32Array is all 0). -/
def fitArray (arr : List ℝ) (n : ℕ) : List ℝ :=
  if arr.length = n then arr else List.replicate n 0

/-- Step 4 baseline EMA update: `baseline[i] = baseline[i]*aBase + tmpA[i]*(1-aBase)`
(with `baselineEnabled` always true in the source). -/
def baselineNext (cfg : FeatureCfg) (dtv : ℝ) (baseline0 mapped : List ℝ) : List ℝ :=
  List.zipWith
    (fun bl u => bl * expCoeff dtv cfg.baselineTauMs + u * (1 - expCoeff dtv cfg.baselineTauMs))
    baseline0 mapped

/-- Step 4 output: deadband plus soft knee on the baseline-subtracted value,
`d = tmpA[i] - bl - deadband; if (d < 0) d = 0; kneeT = d/(knee+d); binsLog[i] = kneeT*kneeT`,
where `bl` is the already-updated baseline entry. -/
def binsLogOfParts (cfg : FeatureCfg) (mapped baseline' : List ℝ) : List ℝ :=
  List.zipWith
    (fun u bl =>
      let d := u - bl - cfg.deadband
      let d2 := if d < 0 then 0 else d
      (d2 / (cfg.knee + d2)) * (d2 / (cfg.knee + d2)))
    mapped baseline'

/-- Step 4.5 per-bin decaying running maximum:
`peakNext = Math.max(binsLog[i], peakPrev * peakDecayBins)`. -/
def binsPeakNext (cfg : FeatureCfg) (dtv : ℝ) (binsLog binsPeak0 : List ℝ) : List ℝ :=
  List.zipWith (fun b p => max b (p * expCoeff dtv cfg.peakDecayMs)) binsLog binsPeak0

/-- Step 4.5 AGC output: `bins[i] = Math.min(1, binsLog[i] / denom)` with
`denom = peakNext > 1e-5 ? peakNext : 1e-5`. -/
def binsOfParts (binsLog binsPeak' : List ℝ) : List ℝ :=
  List.zipWith
    (fun b p => min 1 (b / (if p > 1 / 100000 then p else 1 / 100000)))
    binsLog binsPeak'

/-- The `band` helper of step 5: average the entries of `arr` whose rounded
log-mapped indices fall between `loHz` and `hiHz`. -/
def bandAvg (arr : List ℝ) (fMinL fMaxL loHz hiHz : ℝ) : ℝ :=
  if hiHz ≤ loHz then 0 else
  let n := arr.length
  let ilo : ℤ := max 0 (min ((n : ℤ) - 1)
    (round ((Real.log loHz - Real.log fMinL) / (Real.log fMaxL - Real.log fMinL) * ((n : ℝ) - 1))))
  let ihi : ℤ := max ilo (min ((n : ℤ) - 1)
    (round ((Real.log hiHz - Real.log fMinL) / (Real.log fMaxL - Real.log fMinL) * ((n : ℝ) - 1))))
  let s := ((List.range (ihi - ilo + 1).toNat).map fun k => arr.getD (ilo.toNat + k) 0).sum
  s / max 1 ((ihi : ℝ) - (ilo : ℝ) + 1)

/-- The centroid/rolloff loop body of `extract` (single loop with `break`):
accumulates `wSum`, `fSum`, `cum` over the `(hz, weight)` pairs and stops at
the first pair where `cum >= target`, recording that pair's `hz` as rollHz. -/
def crGo : List (ℝ × ℝ) → ℝ → ℝ → ℝ → ℝ → ℝ → ℝ × ℝ × ℝ
  | [], _, wS, fS, _, roll => (wS, fS, roll)
  | (hz, w) :: rest, target, wS, fS, cum, roll =>
      if target ≤ cum + w then (wS + w, fS + w * hz, hz)
      else crGo rest target (wS + w) (fS + w * hz) (cum + w) roll

/-- The `(hz, weight)` pairs the centroid/rolloff loop iterates over. -/
def crPairs (fMinL fMaxL : ℝ) (w : List ℝ) : List (ℝ × ℝ) :=
  (List.range w.length).map fun i => (hzOfBin fMinL fMaxL w.length i, w.getD i 0)

/-- Centroid and rolloff of `extract` step 5:
`target = 0.85 * binsLog.reduce((s,v)=>s+v, 0)`; the loop starts with
`rollHz = fMin`; afterwards `centroidHz = wSum > 0 ? fSum / wSum : 0`. -/
def centroidRolloffOf (fMinL fMaxL : ℝ) (binsLog : List ℝ) : ℝ × ℝ :=
  let pairs := crPairs fMinL fMaxL binsLog
  let target := 0.85 * binsLog.sum
  let r := crGo pairs target 0 0 0 fMinL
  (if r.1 > 0 then r.2.1 / r.1 else 0, r.2.2)

/-- Cumulative weight of the first `k` pairs. -/
def cumW (l : List (ℝ × ℝ)) (k : ℕ) : ℝ := ((l.take k).map Prod.snd).sum

/-- Cumulative weighted frequency of the first `k` pairs (`w * hz` summands,
in the loop's `fSum` order). -/
def cumF (l : List (ℝ × ℝ)) (k : ℕ) : ℝ := ((l.take k).map fun p => p.2 * p.1).sum

/-- The frequency of pair `k`. -/
def hzAt (l : List (ℝ × ℝ)) (k : ℕ) : ℝ := (l.getD k (0, 0)).1

/-- The first pair index at which the cumulative weight reaches the target
(the rolloff bin), if any. -/
def firstReachIdx (l : List (ℝ × ℝ)) (target : ℝ) : Option ℕ :=
  (List.range l.length).find? fun k => decide (target ≤ cumW l (k + 1))

/-- Specification form of the centroid/rolloff computation (the amended
claim's words): the rolloff bin is the FIRST bin whose cumulative weight
reaches 85% of the total, and the centroid is the weighted average over the
prefix up to and including that bin (over everything when the threshold is
never reached — impossible for nonnegative weights — with the rolloff then
left at `fMin`, the loop's initial value). -/
def specCentroidRolloff (fMinL fMaxL : ℝ) (w : List ℝ) : ℝ × ℝ :=
  let P := crPairs fMinL fMaxL w
  let target := 0.85 * w.sum
  match firstReachIdx P target with
  | some k => (if 0 < cumW P (k + 1) then cumF P (k + 1) / cumW P (k + 1) else 0, hzAt P k)
  | none =>
      (if 0 < cumW P P.length then cumF P P.length / cumW P P.length else 0, fMinL)

/-- The centroid as the claim words it: the weighted-average frequency over
ALL log bins using the weights (zero when the weight sum is zero). -/
def claimCentroid (fMinL fMaxL : ℝ) (w : List ℝ) : ℝ :=
  if w.sum = 0 then 0
  else (((List.range w.length).map
      fun i => w.getD i 0 * hzOfBin fMinL fMaxL w.length i).sum) / w.sum

/-- A concrete extractor configuration used in evaluations:
`createFeatureExtractor({ logBins: 8, fMax: 2560 })`. -/
def cfg8ex : FeatureCfg := { DEFAULTS with logBins := 8, fMax := 2560 }

/-- Step 6 asymmetric attack/decay smoothing of the loudness:
`energy = target > energy ? aAtk*energy + (1-aAtk)*target : aDec*energy + (1-aDec)*target`. -/
def energyNext (cfg : FeatureCfg) (dtv energyPrev rms01v : ℝ) : ℝ :=
  if rms01v > energyPrev then
    expCoeff dtv cfg.attackMs * energyPrev + (1 - expCoeff dtv cfg.attackMs) * rms01v
  else
    expCoeff dtv cfg.decayMs * energyPrev + (1 - expCoeff dtv cfg.decayMs) * rms01v

/-- `peak > 1e-6 ? clamp01(x / peak) : 0` (peak-relative 0..1 forms). -/
def peakRel01 (x peak : ℝ) : ℝ :=
  if peak > 1 / 1000000 then clamp01 (x / peak) else 0

/-- `maxSamples = Math.max(3, Math.floor(cfg.onsetWindowMs / dt))`. -/
def maxSamplesOf (cfg : FeatureCfg) (dtv : ℝ) : ℕ :=
  max 3 ⌊cfg.onsetWindowMs / dtv⌋.toNat

/-- Push the new energy and `shift` the ring down to `maxSamples` entries. -/
def onsetRingNext (cfg : FeatureCfg) (dtv : ℝ) (ring : List ℝ) (e : ℝ) : List ℝ :=
  let r := ring ++ [e]
  r.drop (r.length - maxSamplesOf cfg dtv)

/-- Mean of the onset ring (`m /= onsetRing.length`; the ring is non-empty
after the push). -/
def ringMean (ring : List ℝ) : ℝ := ring.sum / (ring.length : ℝ)

/-- Sample standard deviation of the ring:
`std = Math.sqrt(v2 / Math.max(1, onsetRing.length - 1))`. -/
def ringStd (ring : List ℝ) : ℝ :=
  let m := ringMean ring
  Real.sqrt (((ring.map fun v => (v - m) * (v - m)).sum) / max 1 ((ring.length : ℝ) - 1))

/-- Named low/mid/high band averages. -/
structure BandsR where
  low : ℝ
  mid : ℝ
  high : ℝ

/-- The `Features` snapshot of the rich extractor, over the real-number model.
`rmsDb` is an `EReal` because the guard path of the source returns the JS
value `-Infinity` there. `onset` is the truth value of the z-score test. -/
structure FeaturesR where
  t : ℝ
  dt : ℝ
  rmsDb : EReal
  rms01 : ℝ
  rmsPeak01 : ℝ
  energy : ℝ
  energyPeak01 : ℝ
  onset : Prop
  bands : BandsR
  bandsRaw : BandsR
  centroidHz : ℝ
  rolloffHz : ℝ
  bins : List ℝ
  binsLog : List ℝ
  binsLogRaw : List ℝ

/-- The mutable closure state retained across `extract` calls. -/
structure ExtractState where
  lastT : ℝ
  energy : ℝ
  energyPeak : ℝ
  rmsPeak : ℝ
  baseline : List ℝ
  binsPeak : List ℝ
  onsetRing : List ℝ

/-- State at creation time: `lastT = performance.now()`, `energy = 0`,
`energyPeak = rmsPeak = 1e-6`, arrays null (length mismatch forces
reallocation on first use), empty onset ring. -/
def initState (t0 : ℝ) : ExtractState where
  lastT := t0
  energy := 0
  energyPeak := 1 / 1000000
  rmsPeak := 1 / 1000000
  baseline := []
  binsPeak := []
  onsetRing := []

/-- The updated per-bin baseline of a non-guarded call (step 4; the state
array is reallocated to zeros on length mismatch first). -/
def baselineOf (cfg : FeatureCfg) (s : ExtractState) (dtv : ℝ)
    (fftDb : List ℝ) (sampleRate : ℝ) : List ℝ :=
  baselineNext cfg dtv (fitArray s.baseline (mappedBinsOf cfg fftDb sampleRate).length)
    (mappedBinsOf cfg fftDb sampleRate)

/-- The `binsLog` array of a non-guarded call. -/
def binsLogFull (cfg : FeatureCfg) (s : ExtractState) (dtv : ℝ)
    (fftDb : List ℝ) (sampleRate : ℝ) : List ℝ :=
  binsLogOfParts cfg (mappedBinsOf cfg fftDb sampleRate) (baselineOf cfg s dtv fftDb sampleRate)

/-- The updated per-bin running peaks of a non-guarded call. -/
def binsPeakOf (cfg : FeatureCfg) (s : ExtractState) (dtv : ℝ)
    (fftDb : List ℝ) (sampleRate : ℝ) : List ℝ :=
  binsPeakNext cfg dtv (binsLogFull cfg s dtv fftDb sampleRate)
    (fitArray s.binsPeak (binsLogFull cfg s dtv fftDb sampleRate).length)

/-- The AGC-normalized `bins` array of a non-guarded call. -/
def binsFull (cfg : FeatureCfg) (s : ExtractState) (dtv : ℝ)
    (fftDb : List ℝ) (sampleRate : ℝ) : List ℝ :=
  binsOfParts (binsLogFull cfg s dtv fftDb sampleRate) (binsPeakOf cfg s dtv fftDb sampleRate)

/-- `rms01 = mapDb01(rmsDb, cfg.rmsDbMin, cfg.rmsDbMax, 1.0)`. -/
def rms01Of (cfg : FeatureCfg) (rmsDb : ℝ) : ℝ :=
  mapDb01 rmsDb cfg.rmsDbMin cfg.rmsDbMax 1

/-- The smoothed energy after the call. -/
def energyOf (cfg : FeatureCfg) (s : ExtractState) (dtv rmsDb : ℝ) : ℝ :=
  energyNext cfg dtv s.energy (rms01Of cfg rmsDb)

/-- `rmsPeak = Math.max(rms01, rmsPeak * peakDecay)`. -/
def rmsPeakOf (cfg : FeatureCfg) (s : ExtractState) (dtv rmsDb : ℝ) : ℝ :=
  max (rms01Of cfg rmsDb) (s.rmsPeak * expCoeff dtv cfg.peakDecayMs)

/-- `energyPeak = Math.max(energy, energyPeak * peakDecay)`. -/
def energyPeakOf (cfg : FeatureCfg) (s : ExtractState) (dtv rmsDb : ℝ) : ℝ :=
  max (energyOf cfg s dtv rmsDb) (s.energyPeak * expCoeff dtv cfg.peakDecayMs)

/-- The onset ring after pushing the new energy. -/
def ringOf (cfg : FeatureCfg) (s : ExtractState) (dtv rmsDb : ℝ) : List ℝ :=
  onsetRingNext cfg dtv s.onsetRing (energyOf cfg s dtv rmsDb)

/-- The z-score onset test of the rich extractor:
`(energy - m) > (cfg.onsetK * std + 0.02)`. -/
def onsetProp (cfg : FeatureCfg) (s : ExtractState) (dtv rmsDb : ℝ) : Prop :=
  energyOf cfg s dtv rmsDb - ringMean (ringOf cfg s dtv rmsDb)
    > cfg.onsetK * ringStd (ringOf cfg s dtv rmsDb) + 0.02

/-- The post-knee band summaries of a non-guarded call. -/
def bandsOfFull (cfg : FeatureCfg) (s : ExtractState) (dtv : ℝ)
    (fftDb : List ℝ) (sampleRate : ℝ) : BandsR :=
  ⟨bandAvg (binsLogFull cfg s dtv fftDb sampleRate)
      (clampFMin cfg sampleRate) (clampFMax cfg sampleRate) 20 160,
   bandAvg (binsLogFull cfg s dtv fftDb sampleRate)
      (clampFMin cfg sampleRate) (clampFMax cfg sampleRate) 160 2000,
   bandAvg (binsLogFull cfg s dtv fftDb sampleRate)
      (clampFMin cfg sampleRate) (clampFMax cfg sampleRate) 2000 8000⟩

/-- The raw (pre-knee) band summaries of a non-guarded call. -/
def bandsRawOfFull (cfg : FeatureCfg) (fftDb : List ℝ) (sampleRate : ℝ) : BandsR :=
  ⟨bandAvg (mappedBinsOf cfg fftDb sampleRate)
      (clampFMin cfg sampleRate) (clampFMax cfg sampleRate) 20 160,
   bandAvg (mappedBinsOf cfg fftDb sampleRate)
      (clampFMin cfg sampleRate) (clampFMax cfg sampleRate) 160 2000,
   bandAvg (mappedBinsOf cfg fftDb sampleRate)
      (clampFMin cfg sampleRate) (clampFMax cfg sampleRate) 2000 8000⟩

/-- One call of the rich extractor `extract(fftDb, rmsDb, sampleRate)`, in the
real-number model. `now` stands for the value of `performance.now()` at the
call. The guard condition `!fftN || !isFinite(sampleRate) || sampleRate <= 0`
is rendered as `fftN = 0 ∨ sampleRate ≤ 0`; non-finite sample rates exist only
in the `JsVal` model. Returns the new closure state and the snapshot. -/
def extractR (cfg : FeatureCfg) (s : ExtractState) (now : ℝ)
    (fftDb : List ℝ) (rmsDb : ℝ) (sampleRate : ℝ) : ExtractState × FeaturesR :=
  let dtv := max 1 (now - s.lastT)
  if fftDb.length = 0 ∨ sampleRate ≤ 0 then
    ({ s with lastT := now },
     { t := now, dt := dtv, rmsDb := (⊥ : EReal)
       rms01 := 0, rmsPeak01 := 0, energy := 0, energyPeak01 := 0, onset := False
       bands := ⟨0, 0, 0⟩, bandsRaw := ⟨0, 0, 0⟩
       centroidHz := 0, rolloffHz := 0
       bins := List.replicate cfg.logBins 0
       binsLog := List.replicate cfg.logBins 0
       binsLogRaw := List.replicate cfg.logBins 0 })
  else
    ({ lastT := now
       energy := energyOf cfg s dtv rmsDb
       energyPeak := energyPeakOf cfg s dtv rmsDb
       rmsPeak := rmsPeakOf cfg s dtv rmsDb
       baseline := baselineOf cfg s dtv fftDb sampleRate
       binsPeak := binsPeakOf cfg s dtv fftDb sampleRate
       onsetRing := ringOf cfg s dtv rmsDb },
     { t := now, dt := dtv, rmsDb := (rmsDb : EReal)
       rms01 := rms01Of cfg rmsDb
       rmsPeak01 := peakRel01 (rms01Of cfg rmsDb) (rmsPeakOf cfg s dtv rmsDb)
       energy := energyOf cfg s dtv rmsDb
       energyPeak01 := peakRel01 (energyOf cfg s dtv rmsDb) (energyPeakOf cfg s dtv rmsDb)
       onset := onsetProp cfg s dtv rmsDb
       bands := bandsOfFull cfg s dtv fftDb sampleRate
       bandsRaw := bandsRawOfFull cfg fftDb sampleRate
       centroidHz := (centroidRolloffOf (clampFMin cfg sampleRate) (clampFMax cfg sampleRate)
          (binsLogFull cfg s dtv fftDb sampleRate)).1
       rolloffHz := (centroidRolloffOf (clampFMin cfg sampleRate) (clampFMax cfg sampleRate)
          (binsLogFull cfg s dtv fftDb sampleRate)).2
       bins := binsFull cfg s dtv fftDb sampleRate
       binsLog := binsLogFull cfg s dtv fftDb sampleRate
       binsLogRaw := mappedBinsOf cfg fftDb sampleRate })

/-! ### The canonical onset detector of `src/engine/features.ts`

The spec follows the z-score-with-hysteresis variant (`updateOnset`): a ring
buffer of recent energies, threshold `mean + onsetK*std`, entry above
`threshold + onsetHysteresis`, exit below `threshold - onsetHysteresis`. -/

/-- Ring-buffer state of the `features.ts` onset detector: `hist` models the
fixed-capacity `energyHistory` Float32Array, `size`/`idx` the fill count and
write cursor, `onsetState` the latched flag. -/
structure OnsetStateFT where
  capacity : ℕ
  hist : List ℝ
  size : ℕ
  idx : ℕ
  onsetState : Prop

/-- The history buffer and fill count after pushing `energy`:
`energyHistory[index] = energy; index = (index+1) % capacity; if (size < capacity) size++`. -/
def onsetPushFT (s : OnsetStateFT) (energy : ℝ) : List ℝ × ℕ :=
  (s.hist.set s.idx energy, if s.size < s.capacity then s.size + 1 else s.size)

/-- Mean of the first `size` entries: `mean /= Math.max(1, energyHistorySize)`. -/
def onsetMeanFT (hist : List ℝ) (size : ℕ) : ℝ :=
  ((hist.take size).sum) / max 1 (size : ℝ)

/-- Population standard deviation over the first `size` entries:
`variance /= Math.max(1, energyHistorySize); std = Math.sqrt(variance)`. -/
def onsetStdFT (hist : List ℝ) (size : ℕ) : ℝ :=
  let m := onsetMeanFT hist size
  Real.sqrt ((((hist.take size).map fun x => (x - m) * (x - m)).sum) / max 1 (size : ℝ))

/-- The threshold `mean + onsetK * std` computed by `updateOnset` after the
push of the current energy. -/
def onsetThresholdFT (onsetK : ℝ) (s : OnsetStateFT) (energy : ℝ) : ℝ :=
  let p := onsetPushFT s energy
  onsetMeanFT p.1 p.2 + onsetK * onsetStdFT p.1 p.2

/-- One call of `updateOnset(energy)`:
entry `energy > threshold + onsetHysteresis` when the flag is down, exit
`energy < threshold - onsetHysteresis` when it is up. -/
def updateOnsetFT (onsetK onsetHysteresis : ℝ) (s : OnsetStateFT) (energy : ℝ) : OnsetStateFT :=
  let p := onsetPushFT s energy
  let threshold := onsetThresholdFT onsetK s energy
  { capacity := s.capacity
    hist := p.1
    size := p.2
    idx := (s.idx + 1) % s.capacity
    onsetState :=
      if s.onsetState then ¬(energy < threshold - onsetHysteresis)
      else energy > threshold + onsetHysteresis }

/-! ### ECMAScript number model

`JsVal` represents a JavaScript number as an exact real together with the
three non-finite values. Rounding is not modelled (and `-0` is identified
with `0`); the arithmetic of the special values follows the ECMAScript
specification. This model carries the claims about NaN/Infinity inputs that
the real-number model cannot express. -/

inductive JsVal where
  | num (x : ℝ)
  | nan
  | inf
  | ninf

namespace JsVal

/-- Unary minus. -/
def jsNeg : JsVal → JsVal
  | num x => num (-x)
  | nan => nan
  | inf => ninf
  | ninf => inf

/-- ES addition. -/
def jsAdd : JsVal → JsVal → JsVal
  | nan, _ => nan
  | _, nan => nan
  | inf, ninf => nan
  | ninf, inf => nan
  | inf, _ => inf
  | ninf, _ => ninf
  | num _, inf => inf
  | num _, ninf => ninf
  | num a, num b => num (a + b)

/-- ES subtraction (`a - b = a + (-b)`). -/
def jsSub (a b : JsVal) : JsVal := jsAdd a (jsNeg b)

/-- ES multiplication. -/
def jsMul : JsVal → JsVal → JsVal
  | nan, _ => nan
  | _, nan => nan
  | num a, num b => num (a * b)
  | inf, inf => inf
  | inf, ninf => ninf
  | ninf, inf => ninf
  | ninf, ninf => inf
  | inf, num b => if b = 0 then nan else if b > 0 then inf else ninf
  | ninf, num b => if b = 0 then nan else if b > 0 then ninf else inf
  | num a, inf => if a = 0 then nan else if a > 0 then inf else ninf
  | num a, ninf => if a = 0 then nan else if a > 0 then ninf else inf

/-- ES division (signed zeroes ignored: `x / 0` takes the sign of `x`). -/
def jsDiv : JsVal → JsVal → JsVal
  | nan, _ => nan
  | _, nan => nan
  | num a, num b =>
      if b = 0 then (if a = 0 then nan else if a > 0 then inf else ninf)
      else num (a / b)
  | num _, inf => num 0
  | num _, ninf => num 0
  | inf, num b => if b < 0 then ninf else inf
  | ninf, num b => if b < 0 then inf else ninf
  | inf, _ => nan
  | ninf, _ => nan

/-- ES `<` (false whenever NaN is involved). -/
def jsLt : JsVal → JsVal → Prop
  | nan, _ => False
  | _, nan => False
  | num a, num b => a < b
  | num _, inf => True
  | num _, ninf => False
  | inf, _ => False
  | ninf, ninf => False
  | ninf, _ => True

/-- ES `>`. -/
def jsGt (a b : JsVal) : Prop := jsLt b a

/-- ES `<=` (false whenever NaN is involved, otherwise the negation of `>`). -/
def jsLe : JsVal → JsVal → Prop
  | nan, _ => False
  | _, nan => False
  | a, b => ¬ jsLt b a

/-- `Math.max` (NaN-propagating, otherwise the larger value). -/
def jsMax : JsVal → JsVal → JsVal
  | nan, _ => nan
  | _, nan => nan
  | num a, num b => num (max a b)
  | inf, _ => inf
  | _, inf => inf
  | ninf, b => b
  | a, ninf => a

/-- `Math.min`. -/
def jsMin : JsVal → JsVal → JsVal
  | nan, _ => nan
  | _, nan => nan
  | num a, num b => num (min a b)
  | ninf, _ => ninf
  | _, ninf => ninf
  | inf, b => b
  | a, inf => a

/-- `Math.sqrt`. -/
def jsSqrt : JsVal → JsVal
  | num x => if x < 0 then nan else num (Real.sqrt x)
  | inf => inf
  | ninf => nan
  | nan => nan

/-- `Math.floor`. -/
def jsFloor : JsVal → JsVal
  | num x => num (⌊x⌋ : ℤ)
  | inf => inf
  | ninf => ninf
  | nan => nan

/-- `Math.round` (half away from negative infinity, `⌊x + 1/2⌋`, which is
also Mathlib's `round`). -/
def jsRound : JsVal → JsVal
  | num x => num (round x : ℤ)
  | inf => inf
  | ninf => ninf
  | nan => nan

/-- `Math.log` (natural logarithm; negative argument gives NaN, zero gives
`-Infinity`). -/
def jsLog : JsVal → JsVal
  | num x => if x < 0 then nan else if x = 0 then ninf else num (Real.log x)
  | inf => inf
  | ninf => nan
  | nan => nan

/-- ES `Math.pow`.  On a nonnegative finite base and finite exponent it is
`Real.rpow`, which also agrees with ES on a negative base with integer
exponent; a negative base with non-integer exponent is NaN, `0` to a negative
power is `+Infinity`, and exponent `±Infinity` compares `|base|` against 1. -/
def jsPow : JsVal → JsVal → JsVal
  | _, nan => nan
  | b, inf =>
      match b with
      | num x => if |x| = 1 then nan else if |x| > 1 then inf else num 0
      | nan => nan
      | inf => inf
      | ninf => inf
  | b, ninf =>
      match b with
      | num x => if |x| = 1 then nan else if |x| > 1 then num 0 else inf
      | nan => nan
      | inf => num 0
      | ninf => num 0
  | b, num ey =>
      if ey = 0 then num 1
      else
        match b with
        | nan => nan
        | inf => if ey > 0 then inf else num 0
        | ninf =>
            if ey > 0 then (if ∃ n : ℤ, (2 * n + 1 : ℝ) = ey then ninf else inf)
            else num 0
        | num bx =>
            if bx = 0 then (if ey > 0 then num 0 else inf)
            else if bx < 0 ∧ ¬ ∃ n : ℤ, (n : ℝ) = ey then nan
            else num (bx ^ ey)

/-- `isFinite`. -/
def jsIsFinite : JsVal → Prop
  | num _ => True
  | _ => False

/-- The integer-index view of an array subscript: a JS property access
`arr[v]` hits an element only when `v` is a nonnegative-integer-valued
number; anything else reads `undefined`, which behaves as NaN in the
arithmetic that consumes it. -/
def jsGetElem (l : List JsVal) : JsVal → JsVal
  | num x => if h : ∃ n : ℕ, (n : ℝ) = x then l.getD h.choose nan else nan
  | _ => nan

/-- `0 ≤ v ≤ 1` for a JS value: the claims' "lies in [0,1]" (false for the
non-finite values). -/
def inUnit : JsVal → Prop
  | num x => 0 ≤ x ∧ x ≤ 1
  | _ => False

end JsVal

namespace Js

open JsVal

/-- `clamp01` on JS numbers (`x < 0 ? 0 : x > 1 ? 1 : x`); note that NaN
falls through both comparisons and is returned unchanged. -/
def clamp01Js (x : JsVal) : JsVal :=
  if jsLt x (num 0) then num 0 else if jsGt x (num 1) then num 1 else x

/-- `mapDb01` on JS numbers (the configuration entries are ordinary finite
numbers). -/
def mapDb01Js (xDb : JsVal) (minDb maxDb gamma : ℝ) : JsVal :=
  jsPow (clamp01Js (jsDiv (jsSub xDb (num minDb)) (num (maxDb - minDb)))) (num gamma)

/-- `smooth3` on JS numbers. -/
def smooth3Js (src : List JsVal) (a b c : ℝ) : List JsVal :=
  let n := src.length
  (List.range n).map fun i =>
    jsAdd (jsAdd (jsMul (num a) (src.getD ((i + n - 1) % n) nan))
                 (jsMul (num b) (src.getD i nan)))
          (jsMul (num c) (src.getD ((i + 1) % n) nan))

/-- `hzToFftIndex` on JS numbers. -/
def hzToFftIndexJs (hz : JsVal) (fftLen : ℕ) (sr : JsVal) : JsVal :=
  let ny := jsMul sr (num 0.5)
  jsMul (jsDiv (jsMax (num 0) (jsMin ny hz)) ny) (num ((fftLen : ℝ) - 1))

/-- Log-bin center frequency on JS numbers. -/
def hzOfBinJs (fMinJ fMaxJ : JsVal) (n i : ℕ) : JsVal :=
  jsMul fMinJ (jsPow (jsDiv fMaxJ fMinJ) (num ((i : ℝ) / ((n : ℝ) - 1))))

/-- Step 1 resampling on JS numbers; out-of-range reads give NaN like the
`undefined` they are in JS. -/
def resampleLogBinsJs (cfg : FeatureCfg) (fft : List JsVal) (sr : JsVal) : List JsVal :=
  let fMaxJ := jsMin (num cfg.fMax) (jsMul sr (num 0.5))
  let fMinJ := jsMax (num 1) (jsMin (num cfg.fMin) (jsSub fMaxJ (num 1)))
  (List.range cfg.logBins).map fun i =>
    let fftIdx := hzToFftIndexJs (hzOfBinJs fMinJ fMaxJ cfg.logBins i) fft.length sr
    let i0 := jsMax (num 0) (jsMin (num ((fft.length : ℝ) - 2)) (jsFloor fftIdx))
    let frac := jsSub fftIdx i0
    jsAdd (jsMul (jsGetElem fft i0) (jsSub (num 1) frac))
          (jsMul (jsGetElem fft (jsAdd i0 (num 1))) frac)

/-- Reallocation of a state array on length mismatch. -/
def fitArrayJs (arr : List JsVal) (n : ℕ) : List JsVal :=
  if arr.length = n then arr else List.replicate n (num 0)

/-- The `band` helper on JS numbers.  The `for (let i = ilo; i <= ihi; i++)`
summation executes only when both bounds are (integer-valued) numbers, which
they are by construction whenever the logarithms are finite; a NaN bound
leaves the sum at 0 because the loop condition is false. -/
def bandAvgJs (arr : List JsVal) (fMinJ fMaxJ : JsVal) (loHz hiHz : ℝ) : JsVal :=
  if hiHz ≤ loHz then num 0 else
  let n := arr.length
  let pos := fun (h : ℝ) =>
    jsMul (jsDiv (jsSub (jsLog (num h)) (jsLog fMinJ)) (jsSub (jsLog fMaxJ) (jsLog fMinJ)))
      (num ((n : ℝ) - 1))
  let iloJ := jsMax (num 0) (jsMin (num ((n : ℝ) - 1)) (jsRound (pos loHz)))
  let ihiJ := jsMax iloJ (jsMin (num ((n : ℝ) - 1)) (jsRound (pos hiHz)))
  let s := match iloJ, ihiJ with
    | num a, num b =>
        ((List.range (⌊b⌋ - ⌊a⌋ + 1).toNat).map fun k => jsGetElem arr (num (a + k))).foldl
          jsAdd (num 0)
    | _, _ => num 0
  jsDiv s (jsMax (num 1) (jsAdd (jsSub ihiJ iloJ) (num 1)))

/-- The centroid/rolloff loop on JS numbers. -/
def crGoJs : List (JsVal × JsVal) → JsVal → JsVal → JsVal → JsVal → JsVal → JsVal × JsVal × JsVal
  | [], _, wS, fS, _, roll => (wS, fS, roll)
  | (hz, w) :: rest, target, wS, fS, cum, roll =>
      let wS' := jsAdd wS w
      let fS' := jsAdd fS (jsMul w hz)
      let cum' := jsAdd cum w
      if jsLe target cum' then (wS', fS', hz) else crGoJs rest target wS' fS' cum' roll

/-- Centroid and rolloff on JS numbers. -/
def centroidRolloffJs (fMinJ fMaxJ : JsVal) (binsLog : List JsVal) : JsVal × JsVal :=
  let n := binsLog.length
  let pairs := (List.range n).map fun i => (hzOfBinJs fMinJ fMaxJ n i, binsLog.getD i nan)
  let target := jsMul (num 0.85) (binsLog.foldl jsAdd (num 0))
  let r := crGoJs pairs target (num 0) (num 0) (num 0) fMinJ
  (if jsGt r.1 (num 0) then jsDiv r.2.1 r.1 else num 0, r.2.2)

/-- Asymmetric energy smoothing on JS numbers (the coefficients are finite
since `dt` is). -/
def energyNextJs (cfg : FeatureCfg) (dtv : ℝ) (energyPrev rms01v : JsVal) : JsVal :=
  if jsGt rms01v energyPrev then
    jsAdd (jsMul (num (expCoeff dtv cfg.attackMs)) energyPrev)
          (jsMul (num (1 - expCoeff dtv cfg.attackMs)) rms01v)
  else
    jsAdd (jsMul (num (expCoeff dtv cfg.decayMs)) energyPrev)
          (jsMul (num (1 - expCoeff dtv cfg.decayMs)) rms01v)

/-- `peak > 1e-6 ? clamp01(x / peak) : 0` on JS numbers. -/
def peakRel01Js (x peak : JsVal) : JsVal :=
  if jsGt peak (num (1 / 1000000)) then clamp01Js (jsDiv x peak) else num 0

/-- Band triple on JS numbers. -/
structure BandsJ where
  low : JsVal
  mid : JsVal
  high : JsVal

/-- The `Features` snapshot on JS numbers. -/
structure FeaturesJ where
  t : ℝ
  dt : ℝ
  rmsDb : JsVal
  rms01 : JsVal
  rmsPeak01 : JsVal
  energy : JsVal
  energyPeak01 : JsVal
  onset : Prop
  bands : BandsJ
  bandsRaw : BandsJ
  centroidHz : JsVal
  rolloffHz : JsVal
  bins : List JsVal
  binsLog : List JsVal
  binsLogRaw : List JsVal

/-- The closure state on JS numbers. -/
structure StateJs where
  lastT : ℝ
  energy : JsVal
  energyPeak : JsVal
  rmsPeak : JsVal
  baseline : List JsVal
  binsPeak : List JsVal
  onsetRing : List JsVal

/-- Creation-time closure state. -/
def initStateJs (t0 : ℝ) : StateJs where
  lastT := t0
  energy := num 0
  energyPeak := num (1 / 1000000)
  rmsPeak := num (1 / 1000000)
  baseline := []
  binsPeak := []
  onsetRing := []

/-- One call of the rich `extract` on JS numbers; `now` is `performance.now()`
(always finite).  The guard is the literal
`!fftN || !isFinite(sampleRate) || sampleRate <= 0`. -/
def extractJs (cfg : FeatureCfg) (s : StateJs) (now : ℝ)
    (fftDb : List JsVal) (rmsDb : JsVal) (sampleRate : JsVal) : StateJs × FeaturesJ :=
  let dtv := max 1 (now - s.lastT)
  if fftDb.length = 0 ∨ ¬ jsIsFinite sampleRate ∨ jsLe sampleRate (num 0) then
    ({ s with lastT := now },
     { t := now, dt := dtv, rmsDb := ninf
       rms01 := num 0, rmsPeak01 := num 0, energy := num 0, energyPeak01 := num 0
       onset := False
       bands := ⟨num 0, num 0, num 0⟩, bandsRaw := ⟨num 0, num 0, num 0⟩
       centroidHz := num 0, rolloffHz := num 0
       bins := List.replicate cfg.logBins (num 0)
       binsLog := List.replicate cfg.logBins (num 0)
       binsLogRaw := List.replicate cfg.logBins (num 0) })
  else
    let fMaxJ := jsMin (num cfg.fMax) (jsMul sampleRate (num 0.5))
    let fMinJ := jsMax (num 1) (jsMin (num cfg.fMin) (jsSub fMaxJ (num 1)))
    let out := resampleLogBinsJs cfg fftDb sampleRate
    let sm := if cfg.spatialSmooth then smooth3Js out cfg.k0 cfg.k1 cfg.k2 else out
    let mapped := sm.map fun v => mapDb01Js v cfg.dbMin cfg.dbMax cfg.dbGamma
    let aBase := expCoeff dtv cfg.baselineTauMs
    let baseline' := List.zipWith
      (fun bl u => jsAdd (jsMul bl (num aBase)) (jsMul u (num (1 - aBase))))
      (fitArrayJs s.baseline mapped.length) mapped
    let binsLog := List.zipWith
      (fun u bl =>
        let d := jsSub (jsSub u bl) (num cfg.deadband)
        let d2 := if jsLt d (num 0) then num 0 else d
        let kneeT := jsDiv d2 (jsAdd (num cfg.knee) d2)
        jsMul kneeT kneeT)
      mapped baseline'
    let binsLogRaw := mapped
    let binsPeak' := List.zipWith
      (fun b p => jsMax b (jsMul p (num (expCoeff dtv cfg.peakDecayMs))))
      binsLog (fitArrayJs s.binsPeak binsLog.length)
    let bins := List.zipWith
      (fun b p =>
        jsMin (num 1) (jsDiv b (if jsGt p (num (1 / 100000)) then p else num (1 / 100000))))
      binsLog binsPeak'
    let bands : BandsJ :=
      ⟨bandAvgJs binsLog fMinJ fMaxJ 20 160,
       bandAvgJs binsLog fMinJ fMaxJ 160 2000,
       bandAvgJs binsLog fMinJ fMaxJ 2000 8000⟩
    let bandsRaw : BandsJ :=
      ⟨bandAvgJs binsLogRaw fMinJ fMaxJ 20 160,
       bandAvgJs binsLogRaw fMinJ fMaxJ 160 2000,
       bandAvgJs binsLogRaw fMinJ fMaxJ 2000 8000⟩
    let cr := centroidRolloffJs fMinJ fMaxJ binsLog
    let rms01v := mapDb01Js rmsDb cfg.rmsDbMin cfg.rmsDbMax 1
    let energy' := energyNextJs cfg dtv s.energy rms01v
    let peakDecay := expCoeff dtv cfg.peakDecayMs
    let rmsPeak' := jsMax rms01v (jsMul s.rmsPeak (num peakDecay))
    let energyPeak' := jsMax energy' (jsMul s.energyPeak (num peakDecay))
    let r0 := s.onsetRing ++ [energy']
    let ring' := r0.drop (r0.length - maxSamplesOf cfg dtv)
    let m := jsDiv (ring'.foldl jsAdd (num 0)) (num (ring'.length : ℝ))
    let v2 := (ring'.map fun v => jsMul (jsSub v m) (jsSub v m)).foldl jsAdd (num 0)
    let std := jsSqrt (jsDiv v2 (num (max 1 ((ring'.length : ℝ) - 1))))
    let onsetP := jsGt (jsSub energy' m) (jsAdd (jsMul (num cfg.onsetK) std) (num 0.02))
    ({ lastT := now, energy := energy', energyPeak := energyPeak', rmsPeak := rmsPeak'
       baseline := baseline', binsPeak := binsPeak', onsetRing := ring' },
     { t := now, dt := dtv, rmsDb := rmsDb
       rms01 := rms01v
       rmsPeak01 := peakRel01Js rms01v rmsPeak'
       energy := energy'
       energyPeak01 := peakRel01Js energy' energyPeak'
       onset := onsetP
       bands := bands, bandsRaw := bandsRaw
       centroidHz := cr.1, rolloffHz := cr.2
       bins := bins, binsLog := binsLog, binsLogRaw := binsLogRaw })

end Js

end AV

namespace AV

/-! ### Layer controls, state merge and persistence (`src/engine/layers.ts`) -/

/-- A dynamically-typed control/parameter value (`Record<string, any>` entry). -/
inductive CtrlVal where
  | num (q : ℚ)
  | bool (b : Bool)
  | str (s : String)
deriving DecidableEq

/-- The `Control` tagged union: slider, toggle or select, each carrying a
stable `key` and a default. -/
inductive Control where
  | slider (key label : String) (min max step dflt : ℚ)
  | toggle (key label : String) (dflt : Bool)
  | select (key label : String) (options : List (String × String)) (dflt : String)
deriving DecidableEq

/-- The `key` of a control. -/
def Control.key : Control → String
  | .slider k _ _ _ _ _ => k
  | .toggle k _ _ => k
  | .select k _ _ _ => k

/-- The default value a control contributes to `base` (`base[c.key] = c.default`
in each of the three branches). -/
def Control.defaultVal : Control → CtrlVal
  | .slider _ _ _ _ _ d => .num d
  | .toggle _ _ d => .bool d
  | .select _ _ _ d => .str d

/-- A JS object/record modelled as an association list in key order. -/
abbrev ParamMap := List (String × CtrlVal)

/-- JS property assignment `m[k] = v`: overwrite in place when the key exists,
otherwise append. -/
def setKey (m : ParamMap) (k : String) (v : CtrlVal) : ParamMap :=
  if (m.lookup k).isSome then m.map fun p => if p.1 = k then (k, v) else p
  else m ++ [(k, v)]

/-- Property read `m[k]`. -/
def getKey (m : ParamMap) (k : String) : Option CtrlVal := m.lookup k

/-- JS object spread `{ ...base, ...saved }`: assign every property of `saved`
on top of `base`. -/
def spreadMerge (base saved : ParamMap) : ParamMap :=
  saved.foldl (fun m p => setKey m p.1 p.2) base

/-- `createStateFromControls`: build `base` from the Control-list defaults,
then `layer.state = { ...base, ...saved }`. -/
def createStateFromControls (controls : List Control) (saved : ParamMap) : ParamMap :=
  let base := controls.foldl (fun m c => setKey m c.key c.defaultVal) []
  spreadMerge base saved

/-- The localStorage key prefix. -/
def STORAGE_PREFIX : String := "reveri.layer.state."

/-- `loadState(id)`: `getItem` models `localStorage.getItem` (absent entry =
`none`) and `parseJson` models `JSON.parse` on a stringified parameter map,
with its exceptions rendered as `Except.error`; the `try/catch` returns `{}`
on a missing entry (`null`), on the falsy empty string, and on a parse
failure. -/
def loadState (getItem : String → Option String)
    (parseJson : String → Except Unit ParamMap) (id : String) : ParamMap :=
  match getItem (STORAGE_PREFIX ++ id) with
  | none => []
  | some raw =>
    if raw = "" then []
    else match parseJson raw with
      | .ok m => m
      | .error _ => []

/-! ### The render host's per-layer lifecycle guard (`LayerHost3D.vue`)

`initLayers` runs `layer.init(ctx)` only when the `initialized` marker is not
yet present on the layer object, then sets the marker and enables the layer.
`AudioDebugBars3D.init` itself is modelled by what it allocates: it adds one
instanced mesh plus four plain meshes to the scene and stores them in the
five mesh fields (geometry and materials are created in the constructor, not
in `init`). -/

/-- Runtime model of one layer object as the host sees it: the `initialized`
expando marker, whether the five mesh fields are populated, how many objects
the layer has added to the scene, and its visibility. -/
structure LayerRT where
  initMarker : Bool
  meshesBuilt : Bool
  sceneObjects : ℕ
  visible : Bool
deriving DecidableEq

/-- A freshly-registered layer: no marker, no meshes, nothing in the scene. -/
def freshLayer : LayerRT where
  initMarker := false
  meshesBuilt := false
  sceneObjects := 0
  visible := false

/-- `AudioDebugBars3D.init(ctx)` (unguarded): unconditionally adds the
instanced bins mesh and the four rms/band meshes to the scene. -/
def audioDebugBarsInit (l : LayerRT) : LayerRT :=
  { l with meshesBuilt := true, sceneObjects := l.sceneObjects + 5 }

/-- The body `initLayers` runs for one active id:
`if (!('initialized' in layer)) { layer.init(ctx); layer.initialized = true }
layer.setEnabled(true)`. -/
def initLayersStep (l : LayerRT) : LayerRT :=
  let l' := if l.initMarker then l else { audioDebugBarsInit l with initMarker := true }
  { l' with visible := true }

/-- The control list of `AudioDebugBars3D` (slider barScaleY, slider barGap,
toggle showRaw). -/
def audioDebugBarsControls : List Control :=
  [ .slider "barScaleY" "Bar Scale Y" (1/5) (5/2) (1/20) 1
  , .slider "barGap" "Bar Gap" 0 (1/50) (1/1000) (1/200)
  , .toggle "showRaw" "Show Raw Bins" false ]

end AV

namespace AV

/-! ## Theorems -/

/-! ### Association-list bookkeeping for the state merge -/

theorem lookup_cons_ne (a1 k : String) (a2 : CtrlVal) (t : ParamMap) (hne : k ≠ a1) :
    ((a1, a2) :: t).lookup k = t.lookup k := by
  rw [List.lookup_cons, show (k == a1) = false from beq_eq_false_iff_ne.mpr hne]

theorem lookup_map_set_self (m : ParamMap) (k : String) (v : CtrlVal)
    (h : (m.lookup k).isSome) :
    (m.map fun p => if p.1 = k then (k, v) else p).lookup k = some v := by
  induction m with
  | nil => simp at h
  | cons a t ih =>
    obtain ⟨a1, a2⟩ := a
    by_cases ha : a1 = k
    · subst ha
      simp
    · have h' : (t.lookup k).isSome := by
        rw [lookup_cons_ne a1 k a2 t (Ne.symm ha)] at h
        exact h
      rw [List.map_cons, if_neg (by simpa using ha),
        lookup_cons_ne a1 k a2 _ (Ne.symm ha)]
      exact ih h'

theorem lookup_map_setEq (t : ParamMap) (k k' : String) (v : CtrlVal) (hne : k' ≠ k) :
    (t.map fun p => if p.1 = k then (k, v) else p).lookup k' = t.lookup k' := by
  induction t with
  | nil => simp
  | cons a t ih =>
    obtain ⟨a1, a2⟩ := a
    by_cases ha : a1 = k
    · subst ha
      rw [List.map_cons, if_pos rfl, lookup_cons_ne a1 k' v _ hne,
        lookup_cons_ne a1 k' a2 _ hne]
      exact ih
    · by_cases hk' : k' = a1
      · subst hk'
        rw [List.map_cons, if_neg (by simpa using ha)]
        simp
      · rw [List.map_cons, if_neg (by simpa using ha),
          lookup_cons_ne a1 k' a2 _ hk', lookup_cons_ne a1 k' a2 _ hk']
        exact ih

theorem lookup_setKey (m : ParamMap) (k k' : String) (v : CtrlVal) :
    (setKey m k v).lookup k' = if k' = k then some v else m.lookup k' := by
  by_cases hk : k' = k
  · subst hk
    unfold setKey
    by_cases h : (m.lookup k').isSome
    · rw [if_pos h, lookup_map_set_self m k' v h, if_pos rfl]
    · rw [if_neg h, List.lookup_append, if_pos rfl]
      have hnone : m.lookup k' = none := by
        cases hm : m.lookup k' with
        | none => rfl
        | some w => exact absurd (by simp [hm]) h
      rw [hnone]
      simp
  · unfold setKey
    by_cases h : (m.lookup k).isSome
    · rw [if_pos h, lookup_map_setEq m k k' v hk, if_neg hk]
    · rw [if_neg h, List.lookup_append, if_neg hk,
        lookup_cons_ne k k' v [] hk]
      simp [Option.or_none]

theorem lookup_foldl_setKey (l : List (String × CtrlVal)) (m₀ : ParamMap) (k : String) :
    (l.foldl (fun m p => setKey m p.1 p.2) m₀).lookup k
      = (l.reverse.lookup k).or (m₀.lookup k) := by
  induction l generalizing m₀ with
  | nil => simp
  | cons a t ih =>
    obtain ⟨a1, a2⟩ := a
    simp only [List.foldl_cons, List.reverse_cons]
    rw [ih, List.lookup_append, Option.or_assoc, lookup_setKey]
    by_cases hk : k = a1
    · subst hk
      simp
    · rw [if_neg hk, lookup_cons_ne a1 k a2 [] hk]
      simp

/-- C6 (amended): `createStateFromControls` sets every key to its last
persisted value when the key occurs in the persisted map — including keys
that name no control — and otherwise to the default of the last control with
that key; overrides always take precedence over defaults. -/
theorem claim_C6_state_merge (controls : List Control) (saved : ParamMap) (k : String) :
    getKey (createStateFromControls controls saved) k
      = (saved.reverse.lookup k).or
         (((controls.map fun c => (c.key, c.defaultVal)).reverse.lookup k)) := by
  unfold createStateFromControls spreadMerge getKey
  rw [show (controls.foldl (fun m c => setKey m c.key c.defaultVal) ([] : ParamMap))
        = ((controls.map fun c => (c.key, c.defaultVal)).foldl
            (fun m p => setKey m p.1 p.2) ([] : ParamMap)) by
      rw [List.foldl_map]]
  rw [lookup_foldl_setKey, lookup_foldl_setKey]
  simp

/-- C6 (counterexample): persisting the unknown key `bogus` for the audio
debug-bars layer makes `bogus` appear in the merged state, contradicting the
claim that a key absent from the Control list never appears in the resulting
parameter map. -/
theorem claim_C6_counterexample :
    getKey (createStateFromControls audioDebugBarsControls [("bogus", CtrlVal.num 2)]) "bogus"
      = some (CtrlVal.num 2) := by
  decide

/-- C7: the render host's per-layer initialization step is idempotent — the
second run is a no-op thanks to the `initialized` marker, so the scene
object count (and the whole runtime record) after two runs equals the count
after one. -/
theorem claim_C7_init_idempotent (l : LayerRT) :
    initLayersStep (initLayersStep l) = initLayersStep l
      ∧ (initLayersStep (initLayersStep l)).sceneObjects = (initLayersStep l).sceneObjects := by
  constructor
  · unfold initLayersStep audioDebugBarsInit
    by_cases h : l.initMarker <;> simp [h]
  · unfold initLayersStep audioDebugBarsInit
    by_cases h : l.initMarker <;> simp [h]

/-- C9: `loadState` returns the parsed stored map when the entry exists and
parses, and the empty map — with no failure escaping — when the entry is
missing or the stored data is malformed. -/
theorem claim_C9_loadState (getItem : String → Option String)
    (parseJson : String → Except Unit ParamMap) (id : String) :
    (getItem (STORAGE_PREFIX ++ id) = none → loadState getItem parseJson id = [])
    ∧ (∀ raw m, getItem (STORAGE_PREFIX ++ id) = some raw → raw ≠ "" →
        parseJson raw = .ok m → loadState getItem parseJson id = m)
    ∧ (∀ raw e, getItem (STORAGE_PREFIX ++ id) = some raw →
        parseJson raw = .error e → loadState getItem parseJson id = []) := by
  refine ⟨fun h => ?_, fun raw m h hraw hp => ?_, fun raw e h hp => ?_⟩
  · unfold loadState
    rw [h]
  · unfold loadState
    rw [h]
    simp [hraw, hp]
  · unfold loadState
    rw [h]
    by_cases hraw : raw = ""
    · simp [hraw]
    · simp [hraw, hp]

/-- C9 witness: a concrete store holding a parseable entry for layer `a` and
nothing for layer `b`; `loadState` returns the parsed map for `a` and the
empty map for `b`. -/
theorem claim_C9_loadState_witness :
    (fun k => if k = "reveri.layer.state.a" then some "good" else none)
        ((STORAGE_PREFIX ++ "b" : String)) = none
    ∧ loadState (fun k => if k = "reveri.layer.state.a" then some "good" else none)
        (fun s => if s = "good" then .ok [("gain", CtrlVal.num 1)] else .error ()) "b" = []
    ∧ loadState (fun k => if k = "reveri.layer.state.a" then some "good" else none)
        (fun s => if s = "good" then .ok [("gain", CtrlVal.num 1)] else .error ()) "a"
        = [("gain", CtrlVal.num 1)] := by
  refine ⟨by decide, ?_, ?_⟩
  · exact (claim_C9_loadState
      (fun k => if k = "reveri.layer.state.a" then some "good" else none)
      (fun s => if s = "good" then .ok [("gain", CtrlVal.num 1)] else .error ()) "b").1
      (by decide)
  · exact (claim_C9_loadState
      (fun k => if k = "reveri.layer.state.a" then some "good" else none)
      (fun s => if s = "good" then .ok [("gain", CtrlVal.num 1)] else .error ()) "a").2.1
      "good" [("gain", CtrlVal.num 1)] (by decide) (by decide) (by simp)

/-! ### Frame delta clamping (C10) -/

/-- C10: every `extract` call — including one at an unchanged timestamp —
returns `dt = max 1 (now - lastT) ≥ 1`, hence every smoothing coefficient
`exp(-dt / max 1 tau)` is strictly below 1, and the onset-window sample
count `max 3 ⌊onsetWindowMs / dt⌋` is bounded (by 600 at the default
window), i.e. finite. -/
theorem claim_C10_dt_clamp (cfg : FeatureCfg) (s : ExtractState) (now : ℝ)
    (fftDb : List ℝ) (rmsDb sampleRate : ℝ) :
    (extractR cfg s now fftDb rmsDb sampleRate).2.dt = max 1 (now - s.lastT)
    ∧ 1 ≤ (extractR cfg s now fftDb rmsDb sampleRate).2.dt
    ∧ (∀ tau : ℝ, expCoeff ((extractR cfg s now fftDb rmsDb sampleRate).2.dt) tau < 1)
    ∧ maxSamplesOf cfg ((extractR cfg s now fftDb rmsDb sampleRate).2.dt)
        ≤ max 3 ⌊max cfg.onsetWindowMs 0⌋.toNat
    ∧ maxSamplesOf DEFAULTS ((extractR cfg s now fftDb rmsDb sampleRate).2.dt) ≤ 600 := by
  have hdt : (extractR cfg s now fftDb rmsDb sampleRate).2.dt = max 1 (now - s.lastT) := by
    unfold extractR
    by_cases hg : fftDb.length = 0 ∨ sampleRate ≤ 0
    · rw [if_pos hg]
    · rw [if_neg hg]
  have h1 : (1 : ℝ) ≤ (extractR cfg s now fftDb rmsDb sampleRate).2.dt := by
    rw [hdt]; exact le_max_left _ _
  have hcoeff : ∀ tau : ℝ, expCoeff ((extractR cfg s now fftDb rmsDb sampleRate).2.dt) tau < 1 := by
    intro tau
    unfold expCoeff
    rw [Real.exp_lt_one_iff]
    have hm : (0 : ℝ) < max 1 tau := lt_of_lt_of_le one_pos (le_max_left _ _)
    have hpos : 0 < (extractR cfg s now fftDb rmsDb sampleRate).2.dt / max 1 tau :=
      div_pos (lt_of_lt_of_le one_pos h1) hm
    rw [neg_div]
    exact neg_lt_zero.mpr hpos
  have hbound : ∀ w : ℝ, ∀ dtv : ℝ, 1 ≤ dtv → w / dtv ≤ max w 0 := by
    intro w dtv hdtv
    by_cases hw : 0 ≤ w
    · exact le_trans (div_le_self hw hdtv) (le_max_left _ _)
    · refine le_trans ?_ (le_max_right _ _)
      exact (div_neg_of_neg_of_pos (lt_of_not_le hw) (by linarith)).le
  have hms : ∀ c : FeatureCfg, maxSamplesOf c ((extractR cfg s now fftDb rmsDb sampleRate).2.dt)
      ≤ max 3 ⌊max c.onsetWindowMs 0⌋.toNat := by
    intro c
    unfold maxSamplesOf
    refine max_le_max le_rfl ?_
    exact Int.toNat_le_toNat (Int.floor_le_floor (hbound _ _ h1))
  refine ⟨hdt, h1, hcoeff, hms cfg, ?_⟩
  refine le_trans (hms DEFAULTS) ?_
  have : (max (600 : ℝ) 0) = 600 := by norm_num
  rw [show DEFAULTS.onsetWindowMs = (600 : ℝ) from rfl, this]
  norm_num

/-! ### Monotonicity of the log-frequency mapping (C8) -/

/-- C8 (counterexample): at `sampleRate = 1` the clamped band degenerates
(`fMax = 0.5 < fMin = 1`), and the bin center frequencies strictly decrease:
bin 0 sits at 1 Hz while bin 127 sits at 0.5 Hz, refuting strict increase in
the bin index. -/
theorem claim_C8_counterexample :
    hzOfBin (clampFMin DEFAULTS 1) (clampFMax DEFAULTS 1) DEFAULTS.logBins 0 = 1
    ∧ hzOfBin (clampFMin DEFAULTS 1) (clampFMax DEFAULTS 1) DEFAULTS.logBins 127 = 1 / 2
    ∧ ¬ (hzOfBin (clampFMin DEFAULTS 1) (clampFMax DEFAULTS 1) DEFAULTS.logBins 0
          < hzOfBin (clampFMin DEFAULTS 1) (clampFMax DEFAULTS 1) DEFAULTS.logBins 127) := by
  have hmax : clampFMax DEFAULTS 1 = 1 / 2 := by
    unfold clampFMax
    rw [show DEFAULTS.fMax = (8000 : ℝ) from rfl]
    norm_num
  have hmin : clampFMin DEFAULTS 1 = 1 := by
    unfold clampFMin
    rw [hmax, show DEFAULTS.fMin = (20 : ℝ) from rfl]
    norm_num
  have h0 : hzOfBin (clampFMin DEFAULTS 1) (clampFMax DEFAULTS 1) DEFAULTS.logBins 0 = 1 := by
    unfold hzOfBin
    rw [hmin, hmax]
    norm_num
  have h127 : hzOfBin (clampFMin DEFAULTS 1) (clampFMax DEFAULTS 1) DEFAULTS.logBins 127
      = 1 / 2 := by
    unfold hzOfBin
    rw [hmin, hmax, show DEFAULTS.logBins = 128 from rfl]
    rw [show ((127 : ℕ) : ℝ) / (((128 : ℕ) : ℝ) - 1) = 1 by norm_num]
    rw [Real.rpow_one]
    norm_num
  refine ⟨h0, h127, ?_⟩
  rw [h0, h127]
  norm_num

/-- C8 (amended): for the default configuration the bin center frequencies
are strictly increasing in the bin index whenever `sampleRate > 2` (so that
the clamped band satisfies `fMin < fMax`); at `sampleRate ≤ 2` the band
degenerates and the mapping is constant or decreasing. -/
theorem claim_C8_log_monotone (sampleRate : ℝ) (hs : 2 < sampleRate)
    (i j : ℕ) (hij : i < j) (hj : j < DEFAULTS.logBins) :
    hzOfBin (clampFMin DEFAULTS sampleRate) (clampFMax DEFAULTS sampleRate) DEFAULTS.logBins i
      < hzOfBin (clampFMin DEFAULTS sampleRate) (clampFMax DEFAULTS sampleRate)
          DEFAULTS.logBins j := by
  have hmax1 : 1 < clampFMax DEFAULTS sampleRate := by
    unfold clampFMax
    rw [show DEFAULTS.fMax = (8000 : ℝ) from rfl]
    refine lt_min (by norm_num) (by linarith)
  have hminpos : 0 < clampFMin DEFAULTS sampleRate := by
    unfold clampFMin
    exact lt_of_lt_of_le one_pos (le_max_left _ _)
  have hlt : clampFMin DEFAULTS sampleRate < clampFMax DEFAULTS sampleRate := by
    unfold clampFMin
    refine max_lt hmax1 (lt_of_le_of_lt (min_le_right _ _) (by linarith))
  have hratio : 1 < clampFMax DEFAULTS sampleRate / clampFMin DEFAULTS sampleRate :=
    (one_lt_div hminpos).mpr hlt
  unfold hzOfBin
  refine mul_lt_mul_of_pos_left ?_ hminpos
  rw [Real.rpow_lt_rpow_left_iff hratio]
  rw [show DEFAULTS.logBins = 128 from rfl] at hj ⊢
  have h127 : (0 : ℝ) < ((128 : ℕ) : ℝ) - 1 := by norm_num
  exact div_lt_div_of_pos_right (by exact_mod_cast hij) h127

/-- C8 witness: at the standard 44100 Hz sample rate, bin 0 maps strictly
below bin 1. -/
theorem claim_C8_log_monotone_witness :
    (2 : ℝ) < 44100 ∧ (0 : ℕ) < 1 ∧ 1 < DEFAULTS.logBins
    ∧ hzOfBin (clampFMin DEFAULTS 44100) (clampFMax DEFAULTS 44100) DEFAULTS.logBins 0
        < hzOfBin (clampFMin DEFAULTS 44100) (clampFMax DEFAULTS 44100) DEFAULTS.logBins 1 :=
  ⟨by norm_num, by norm_num, by rw [show DEFAULTS.logBins = 128 from rfl]; norm_num,
    claim_C8_log_monotone 44100 (by norm_num) 0 1 (by norm_num)
      (by rw [show DEFAULTS.logBins = 128 from rfl]; norm_num)⟩

/-! ### The guard path (C3, C2) -/

/-- C3 (amended): on an empty spectrum or a non-positive sample rate,
`extract` never throws and returns a snapshot whose spectral fields are
zeroed and whose timing fields are updated — but whose loudness fields are
zeroed as well (`rmsDb = -Infinity`, `rms01 = rmsPeak01 = energy =
energyPeak01 = 0`, `onset = false`), not recomputed from the given
`loudnessDb`; the closure state is left untouched except for `lastT`. -/
theorem claim_C3_guard (cfg : FeatureCfg) (s : ExtractState) (now : ℝ)
    (fftDb : List ℝ) (rmsDb sampleRate : ℝ) (r : ExtractState × FeaturesR)
    (hg : fftDb = [] ∨ sampleRate ≤ 0)
    (hr : r = extractR cfg s now fftDb rmsDb sampleRate) :
    r.2.t = now ∧ r.2.dt = max 1 (now - s.lastT)
    ∧ r.2.rmsDb = (⊥ : EReal) ∧ r.2.rms01 = 0 ∧ r.2.rmsPeak01 = 0
    ∧ r.2.energy = 0 ∧ r.2.energyPeak01 = 0 ∧ ¬ r.2.onset
    ∧ r.2.bands.low = 0 ∧ r.2.bands.mid = 0 ∧ r.2.bands.high = 0
    ∧ r.2.bandsRaw.low = 0 ∧ r.2.bandsRaw.mid = 0 ∧ r.2.bandsRaw.high = 0
    ∧ r.2.centroidHz = 0 ∧ r.2.rolloffHz = 0
    ∧ r.2.bins = List.replicate cfg.logBins 0
    ∧ r.2.binsLog = List.replicate cfg.logBins 0
    ∧ r.2.binsLogRaw = List.replicate cfg.logBins 0
    ∧ r.1 = { s with lastT := now } := by
  have hg' : fftDb.length = 0 ∨ sampleRate ≤ 0 := by
    rcases hg with hg | hg
    · exact Or.inl (by rw [hg]; rfl)
    · exact Or.inr hg
  subst hr
  unfold extractR
  rw [if_pos hg']
  exact ⟨rfl, rfl, rfl, rfl, rfl, rfl, rfl, not_false, rfl, rfl, rfl, rfl, rfl, rfl,
    rfl, rfl, rfl, rfl, rfl, rfl⟩

/-- C3 witness: a concrete guarded call (empty spectrum, loud input, busy
state) exercising the theorem. -/
theorem claim_C3_guard_witness :
    (([] : List ℝ) = [] ∨ (44100 : ℝ) ≤ 0)
    ∧ (extractR DEFAULTS (initState 0) 1 [] (-6) 44100).2.energy = 0
    ∧ (extractR DEFAULTS (initState 0) 1 [] (-6) 44100).2.t = 1 := by
  refine ⟨Or.inl rfl, ?_, ?_⟩
  · exact (claim_C3_guard DEFAULTS (initState 0) 1 [] (-6) 44100 _ (Or.inl rfl) rfl).2.2.2.2.2.1
  · exact (claim_C3_guard DEFAULTS (initState 0) 1 [] (-6) 44100 _ (Or.inl rfl) rfl).1

/-- C3 (counterexample): with the spectrum empty and `loudnessDb = -6` (the
top of the configured loudness range, which maps to 1) and a state holding
smoothed energy 1/2, the call returns `rms01 = 0` and `energy = 0`: the
loudness fields are not updated from the given `loudnessDb`, contradicting
the claim. -/
theorem claim_C3_counterexample :
    (extractR DEFAULTS
        { lastT := 0, energy := 1 / 2, energyPeak := 1 / 1000000, rmsPeak := 1 / 1000000
          baseline := [], binsPeak := [], onsetRing := [] } 1 [] (-6) 44100).2.rms01 = 0
    ∧ (extractR DEFAULTS
        { lastT := 0, energy := 1 / 2, energyPeak := 1 / 1000000, rmsPeak := 1 / 1000000
          baseline := [], binsPeak := [], onsetRing := [] } 1 [] (-6) 44100).2.energy = 0
    ∧ mapDb01 (-6) DEFAULTS.rmsDbMin DEFAULTS.rmsDbMax 1 = 1 := by
  refine ⟨?_, ?_, ?_⟩
  · unfold extractR
    rw [if_pos (show ([] : List ℝ).length = 0 ∨ (44100 : ℝ) ≤ 0 from Or.inl rfl)]
  · unfold extractR
    rw [if_pos (show ([] : List ℝ).length = 0 ∨ (44100 : ℝ) ≤ 0 from Or.inl rfl)]
  · unfold mapDb01 clamp01
    rw [show DEFAULTS.rmsDbMin = (-60 : ℝ) from rfl, show DEFAULTS.rmsDbMax = (-6 : ℝ) from rfl]
    rw [show ((-6 : ℝ) - -60) / (-6 - -60) = 1 by norm_num]
    rw [if_neg (by norm_num), if_neg (by norm_num)]
    exact Real.one_rpow 1

/-- C2 (amended): `extract([], anyLoudness, 44100)` never throws and returns
a snapshot whose `binsLog` has length `logBins = 128` (all zeros), whose
0..1-family numeric fields are all 0 (finite), and whose `rmsDb` is
`-Infinity` (non-finite by design). -/
theorem claim_C2_empty (s : ExtractState) (now loudness : ℝ) (r : ExtractState × FeaturesR)
    (hr : r = extractR DEFAULTS s now [] loudness 44100) :
    r.2.binsLog.length = DEFAULTS.logBins ∧ DEFAULTS.logBins = 128
    ∧ r.2.binsLogRaw.length = 128 ∧ r.2.bins.length = 128
    ∧ r.2.rmsDb = (⊥ : EReal)
    ∧ r.2.rms01 = 0 ∧ r.2.rmsPeak01 = 0 ∧ r.2.energy = 0 ∧ r.2.energyPeak01 = 0
    ∧ r.2.bands.low = 0 ∧ r.2.bands.mid = 0 ∧ r.2.bands.high = 0
    ∧ r.2.centroidHz = 0 ∧ r.2.rolloffHz = 0 := by
  subst hr
  unfold extractR
  rw [if_pos (show ([] : List ℝ).length = 0 ∨ (44100 : ℝ) ≤ 0 from Or.inl rfl)]
  refine ⟨?_, rfl, ?_, ?_, rfl, rfl, rfl, rfl, rfl, rfl, rfl, rfl, rfl, rfl⟩
  · exact List.length_replicate _ _
  · exact List.length_replicate _ _
  · exact List.length_replicate _ _

/-- C2 witness: the concrete empty-spectrum call at loudness −60. -/
theorem claim_C2_empty_witness :
    (extractR DEFAULTS (initState 0) 1 [] (-60) 44100).2.binsLog.length = DEFAULTS.logBins
    ∧ (extractR DEFAULTS (initState 0) 1 [] (-60) 44100).2.rmsDb = (⊥ : EReal) := by
  refine ⟨(claim_C2_empty (initState 0) 1 (-60) _ rfl).1, ?_⟩
  exact (claim_C2_empty (initState 0) 1 (-60) _ rfl).2.2.2.2.1

/-- C2 (counterexample): the empty-spectrum call returns `binsLog` of length
128, not 0, and its `rmsDb` field is `-Infinity`, so not every other numeric
field is finite; both parts of the claim fail at this input. -/
theorem claim_C2_counterexample :
    (extractR DEFAULTS (initState 0) 1 [] (-60) 44100).2.binsLog.length = 128
    ∧ (extractR DEFAULTS (initState 0) 1 [] (-60) 44100).2.binsLog.length ≠ 0
    ∧ (extractR DEFAULTS (initState 0) 1 [] (-60) 44100).2.rmsDb = (⊥ : EReal) := by
  have hlen : (extractR DEFAULTS (initState 0) 1 [] (-60) 44100).2.binsLog.length = 128 := by
    unfold extractR
    rw [if_pos (show ([] : List ℝ).length = 0 ∨ (44100 : ℝ) ≤ 0 from Or.inl rfl)]
    exact List.length_replicate _ _
  refine ⟨hlen, by rw [hlen]; norm_num, ?_⟩
  unfold extractR
  rw [if_pos (show ([] : List ℝ).length = 0 ∨ (44100 : ℝ) ≤ 0 from Or.inl rfl)]

/-! ### Range invariants of the 0..1 family (C1) -/

theorem clamp01_bounds (x : ℝ) : 0 ≤ clamp01 x ∧ clamp01 x ≤ 1 := by
  unfold clamp01
  split_ifs with h1 h2
  · norm_num
  · norm_num
  · exact ⟨not_lt.mp h1, not_lt.mp h2⟩

theorem mapDb01_bounds (xDb minDb maxDb gamma : ℝ) (hγ : 0 ≤ gamma) :
    0 ≤ mapDb01 xDb minDb maxDb gamma ∧ mapDb01 xDb minDb maxDb gamma ≤ 1 := by
  unfold mapDb01
  obtain ⟨h0, h1⟩ := clamp01_bounds ((xDb - minDb) / (maxDb - minDb))
  exact ⟨Real.rpow_nonneg h0 _, Real.rpow_le_one h0 h1 hγ⟩

theorem expCoeff_bounds (dtv tau : ℝ) (hdt : 0 ≤ dtv) :
    0 ≤ expCoeff dtv tau ∧ expCoeff dtv tau ≤ 1 := by
  unfold expCoeff
  refine ⟨(Real.exp_pos _).le, ?_⟩
  rw [Real.exp_le_one_iff, neg_div]
  exact neg_nonpos.mpr (div_nonneg hdt (le_trans zero_le_one (le_max_left _ _)))

theorem energyNext_bounds (cfg : FeatureCfg) (dtv e t : ℝ) (hdt : 0 ≤ dtv)
    (he0 : 0 ≤ e) (he1 : e ≤ 1) (ht0 : 0 ≤ t) (ht1 : t ≤ 1) :
    0 ≤ energyNext cfg dtv e t ∧ energyNext cfg dtv e t ≤ 1 := by
  unfold energyNext
  split_ifs
  · obtain ⟨ha0, ha1⟩ := expCoeff_bounds dtv cfg.attackMs hdt
    constructor <;> nlinarith
  · obtain ⟨ha0, ha1⟩ := expCoeff_bounds dtv cfg.decayMs hdt
    constructor <;> nlinarith

theorem peakRel01_bounds (x peak : ℝ) : 0 ≤ peakRel01 x peak ∧ peakRel01 x peak ≤ 1 := by
  unfold peakRel01
  split_ifs
  · exact clamp01_bounds _
  · norm_num

theorem mem_zipWith_exists {α β γ : Type} {f : α → β → γ} :
    ∀ {l1 : List α} {l2 : List β} {x : γ}, x ∈ List.zipWith f l1 l2 →
      ∃ a b, a ∈ l1 ∧ b ∈ l2 ∧ x = f a b := by
  intro l1
  induction l1 with
  | nil => intro l2 x hx; simp at hx
  | cons a t ih =>
    intro l2 x hx
    cases l2 with
    | nil => simp at hx
    | cons b t2 =>
      rw [List.zipWith_cons_cons, List.mem_cons] at hx
      rcases hx with rfl | hx
      · exact ⟨a, b, List.mem_cons_self _ _, List.mem_cons_self _ _, rfl⟩
      · obtain ⟨a', b', ha, hb, rfl⟩ := ih hx
        exact ⟨a', b', List.mem_cons_of_mem _ ha, List.mem_cons_of_mem _ hb, rfl⟩

theorem mappedBins_bounds (cfg : FeatureCfg) (fft : List ℝ) (sr : ℝ) (hγ : 0 ≤ cfg.dbGamma) :
    ∀ x ∈ mappedBinsOf cfg fft sr, 0 ≤ x ∧ x ≤ 1 := by
  intro x hx
  unfold mappedBinsOf at hx
  simp only [List.mem_map] at hx
  obtain ⟨v, _, rfl⟩ := hx
  exact mapDb01_bounds v cfg.dbMin cfg.dbMax cfg.dbGamma hγ

theorem binsLogOfParts_bounds (cfg : FeatureCfg) (mapped baseline' : List ℝ)
    (hk : 0 < cfg.knee) :
    ∀ x ∈ binsLogOfParts cfg mapped baseline', 0 ≤ x ∧ x ≤ 1 := by
  intro x hx
  unfold binsLogOfParts at hx
  obtain ⟨u, bl, _, _, rfl⟩ := mem_zipWith_exists hx
  dsimp only
  set d2 := if u - bl - cfg.deadband < 0 then (0 : ℝ) else u - bl - cfg.deadband with hd2def
  have hd2 : 0 ≤ d2 := by
    rw [hd2def]
    split_ifs with h
    · exact le_refl 0
    · exact not_lt.mp h
  have hden : 0 < cfg.knee + d2 := by linarith
  have hq0 : 0 ≤ d2 / (cfg.knee + d2) := div_nonneg hd2 hden.le
  have hq1 : d2 / (cfg.knee + d2) ≤ 1 := (div_le_one hden).mpr (by linarith)
  constructor
  · exact mul_nonneg hq0 hq0
  · nlinarith

theorem binsOfParts_bounds (binsLog binsPeak' : List ℝ) (hb : ∀ x ∈ binsLog, 0 ≤ x) :
    ∀ x ∈ binsOfParts binsLog binsPeak', 0 ≤ x ∧ x ≤ 1 := by
  intro x hx
  unfold binsOfParts at hx
  obtain ⟨b, p, hbm, _, rfl⟩ := mem_zipWith_exists hx
  have hden : 0 < (if p > 1 / 100000 then p else 1 / 100000) := by
    split_ifs with h
    · linarith
    · norm_num
  exact ⟨le_min (by norm_num) (div_nonneg (hb b hbm) hden.le), min_le_left _ _⟩

theorem getD_unit_bounds (l : List ℝ) (h : ∀ x ∈ l, 0 ≤ x ∧ x ≤ 1) (i : ℕ) :
    0 ≤ l.getD i 0 ∧ l.getD i 0 ≤ 1 := by
  rcases Nat.lt_or_ge i l.length with hi | hi
  · rw [List.getD_eq_getElem l 0 hi]
    exact h _ (List.getElem_mem hi)
  · rw [List.getD_eq_default l 0 hi]
    norm_num

theorem sum_unit_bounds (l : List ℝ) (h : ∀ x ∈ l, 0 ≤ x ∧ x ≤ 1) :
    0 ≤ l.sum ∧ l.sum ≤ (l.length : ℝ) := by
  constructor
  · exact List.sum_nonneg fun x hx => (h x hx).1
  · have := List.sum_le_card_nsmul l 1 fun x hx => (h x hx).2
    simpa using this

theorem avgSlice_bounds (arr : List ℝ) (h : ∀ x ∈ arr, 0 ≤ x ∧ x ≤ 1) (ilo ihi : ℤ)
    (hle : ilo ≤ ihi) :
    0 ≤ (((List.range (ihi - ilo + 1).toNat).map fun k => arr.getD (ilo.toNat + k) 0).sum)
          / max 1 ((ihi : ℝ) - (ilo : ℝ) + 1)
    ∧ (((List.range (ihi - ilo + 1).toNat).map fun k => arr.getD (ilo.toNat + k) 0).sum)
          / max 1 ((ihi : ℝ) - (ilo : ℝ) + 1) ≤ 1 := by
  have hc : (1 : ℝ) ≤ (ihi : ℝ) - (ilo : ℝ) + 1 := by
    have : (ilo : ℝ) ≤ (ihi : ℝ) := Int.cast_le.mpr hle
    linarith
  rw [max_eq_right hc]
  have hL : ∀ x ∈ (List.range (ihi - ilo + 1).toNat).map
      (fun k => arr.getD (ilo.toNat + k) 0), 0 ≤ x ∧ x ≤ 1 := by
    intro x hx
    simp only [List.mem_map] at hx
    obtain ⟨k, _, rfl⟩ := hx
    exact getD_unit_bounds arr h _
  obtain ⟨hs0, hs1⟩ := sum_unit_bounds _ hL
  constructor
  · exact div_nonneg hs0 (by linarith)
  · rw [div_le_one (by linarith)]
    refine le_trans hs1 ?_
    rw [List.length_map, List.length_range]
    rw [show (((ihi - ilo + 1).toNat : ℕ) : ℝ) = ((ihi - ilo + 1 : ℤ) : ℝ) by
      norm_cast
      omega]
    push_cast
    linarith

theorem bandAvg_bounds (arr : List ℝ) (fMinL fMaxL loHz hiHz : ℝ)
    (h : ∀ x ∈ arr, 0 ≤ x ∧ x ≤ 1) :
    0 ≤ bandAvg arr fMinL fMaxL loHz hiHz ∧ bandAvg arr fMinL fMaxL loHz hiHz ≤ 1 := by
  unfold bandAvg
  split_ifs with h0
  · norm_num
  · exact avgSlice_bounds arr h _ _ (le_max_left _ _)

/-- C1 (amended): starting from any state whose smoothed energy lies in
[0,1] (as the initial state's does and as every call preserves), a call of
the default-configured `extract` with finite inputs returns every
0..1-family field inside [0,1]: `rms01`, `rmsPeak01`, `energy`,
`energyPeak01`, every entry of `bins`, `binsLog` and `binsLogRaw`, and all
six band values; and the stored smoothed energy stays in [0,1].  (The
original claim's tolerance of non-finite inputs fails: see the
counterexample, where a NaN `loudnessDb` makes `rms01` NaN.) -/
theorem claim_C1_unit_range (s : ExtractState) (now : ℝ) (fftDb : List ℝ)
    (rmsDb sampleRate : ℝ) (r : ExtractState × FeaturesR)
    (hE0 : 0 ≤ s.energy) (hE1 : s.energy ≤ 1)
    (hr : r = extractR DEFAULTS s now fftDb rmsDb sampleRate) :
    (0 ≤ r.2.rms01 ∧ r.2.rms01 ≤ 1)
    ∧ (0 ≤ r.2.rmsPeak01 ∧ r.2.rmsPeak01 ≤ 1)
    ∧ (0 ≤ r.2.energy ∧ r.2.energy ≤ 1)
    ∧ (0 ≤ r.2.energyPeak01 ∧ r.2.energyPeak01 ≤ 1)
    ∧ (∀ x ∈ r.2.bins, 0 ≤ x ∧ x ≤ 1)
    ∧ (∀ x ∈ r.2.binsLog, 0 ≤ x ∧ x ≤ 1)
    ∧ (∀ x ∈ r.2.binsLogRaw, 0 ≤ x ∧ x ≤ 1)
    ∧ (0 ≤ r.2.bands.low ∧ r.2.bands.low ≤ 1)
    ∧ (0 ≤ r.2.bands.mid ∧ r.2.bands.mid ≤ 1)
    ∧ (0 ≤ r.2.bands.high ∧ r.2.bands.high ≤ 1)
    ∧ (0 ≤ r.2.bandsRaw.low ∧ r.2.bandsRaw.low ≤ 1)
    ∧ (0 ≤ r.2.bandsRaw.mid ∧ r.2.bandsRaw.mid ≤ 1)
    ∧ (0 ≤ r.2.bandsRaw.high ∧ r.2.bandsRaw.high ≤ 1)
    ∧ (0 ≤ r.1.energy ∧ r.1.energy ≤ 1) := by
  subst hr
  unfold extractR
  by_cases hg : fftDb.length = 0 ∨ sampleRate ≤ 0
  · rw [if_pos hg]
    refine ⟨by norm_num, by norm_num, by norm_num, by norm_num, ?_, ?_, ?_,
      by norm_num, by norm_num, by norm_num, by norm_num, by norm_num, by norm_num,
      ⟨hE0, hE1⟩⟩
    all_goals
      intro x hx
      rw [List.eq_of_mem_replicate hx]
      norm_num
  · rw [if_neg hg]
    have hdt0 : (0 : ℝ) ≤ max 1 (now - s.lastT) := le_trans zero_le_one (le_max_left _ _)
    have hγ : (0 : ℝ) ≤ DEFAULTS.dbGamma := by
      rw [show DEFAULTS.dbGamma = (1.3 : ℝ) from rfl]; norm_num
    have hknee : (0 : ℝ) < DEFAULTS.knee := by
      rw [show DEFAULTS.knee = (0.2 : ℝ) from rfl]; norm_num
    have hrms : 0 ≤ rms01Of DEFAULTS rmsDb ∧ rms01Of DEFAULTS rmsDb ≤ 1 :=
      mapDb01_bounds rmsDb _ _ 1 (by norm_num)
    have hen : 0 ≤ energyOf DEFAULTS s (max 1 (now - s.lastT)) rmsDb
        ∧ energyOf DEFAULTS s (max 1 (now - s.lastT)) rmsDb ≤ 1 :=
      energyNext_bounds DEFAULTS _ _ _ hdt0 hE0 hE1 hrms.1 hrms.2
    have hmapped := mappedBins_bounds DEFAULTS fftDb sampleRate hγ
    have hbl : ∀ x ∈ binsLogFull DEFAULTS s (max 1 (now - s.lastT)) fftDb sampleRate,
        0 ≤ x ∧ x ≤ 1 := by
      unfold binsLogFull
      exact binsLogOfParts_bounds DEFAULTS _ _ hknee
    have hbins : ∀ x ∈ binsFull DEFAULTS s (max 1 (now - s.lastT)) fftDb sampleRate,
        0 ≤ x ∧ x ≤ 1 := by
      unfold binsFull binsPeakOf
      exact binsOfParts_bounds _ _ (fun x hx => (hbl x hx).1)
    refine ⟨hrms, peakRel01_bounds _ _, hen, peakRel01_bounds _ _, hbins, hbl, hmapped,
      ?_, ?_, ?_, ?_, ?_, ?_, hen⟩
    all_goals
      first
      | exact bandAvg_bounds _ _ _ _ _ hbl
      | exact bandAvg_bounds _ _ _ _ _ hmapped

/-- C1 witness: the concrete first call with a finite two-sample spectrum at
−100 dB and loudness −50 dB. -/
theorem claim_C1_unit_range_witness :
    (0 : ℝ) ≤ (initState 0).energy ∧ (initState 0).energy ≤ 1
    ∧ (0 ≤ (extractR DEFAULTS (initState 0) 1 [-100, -100] (-50) 44100).2.rms01
        ∧ (extractR DEFAULTS (initState 0) 1 [-100, -100] (-50) 44100).2.rms01 ≤ 1) := by
  refine ⟨le_refl 0, zero_le_one, ?_⟩
  exact (claim_C1_unit_range (initState 0) 1 [-100, -100] (-50) 44100 _
    (le_refl 0) zero_le_one rfl).1

/-- C1 (counterexample): in the ECMAScript-number model, calling the
default-configured `extract` with a finite spectrum but `loudnessDb = NaN`
returns `rms01 = NaN`: `mapDb01` has no non-finite guard, NaN falls through
both clamping comparisons and `Math.pow(NaN, 1) = NaN`. So a NaN input does
propagate into the 0..1 family, and the returned `rms01` does not lie in
[0,1]. -/
theorem claim_C1_counterexample :
    (Js.extractJs DEFAULTS (Js.initStateJs 0) 1
        [JsVal.num (-100), JsVal.num (-100)] JsVal.nan (JsVal.num 44100)).2.rms01 = JsVal.nan
    ∧ ¬ JsVal.inUnit
        ((Js.extractJs DEFAULTS (Js.initStateJs 0) 1
          [JsVal.num (-100), JsVal.num (-100)] JsVal.nan (JsVal.num 44100)).2.rms01) := by
  have hc : Js.clamp01Js JsVal.nan = JsVal.nan := by
    unfold Js.clamp01Js
    rw [if_neg (show ¬ JsVal.jsLt JsVal.nan (JsVal.num 0) from fun h => h),
      if_neg (show ¬ JsVal.jsGt JsVal.nan (JsVal.num 1) from fun h => h)]
  have hpow : JsVal.jsPow JsVal.nan (JsVal.num 1) = JsVal.nan := by
    unfold JsVal.jsPow
    dsimp only
    rw [if_neg (show ¬ ((1 : ℝ) = 0) by norm_num)]
  have hmap : Js.mapDb01Js JsVal.nan DEFAULTS.rmsDbMin DEFAULTS.rmsDbMax 1 = JsVal.nan := by
    unfold Js.mapDb01Js
    rw [show JsVal.jsSub JsVal.nan (JsVal.num DEFAULTS.rmsDbMin) = JsVal.nan from rfl,
      show JsVal.jsDiv JsVal.nan (JsVal.num (DEFAULTS.rmsDbMax - DEFAULTS.rmsDbMin))
        = JsVal.nan from rfl, hc, hpow]
  have hg : ¬ ((List.length [JsVal.num (-100), JsVal.num (-100)] = 0)
      ∨ ¬ JsVal.jsIsFinite (JsVal.num 44100)
      ∨ JsVal.jsLe (JsVal.num 44100) (JsVal.num 0)) := by
    push_neg
    refine ⟨by norm_num, trivial, ?_⟩
    exact fun h => h (show (0 : ℝ) < 44100 by norm_num)
  have h1 : (Js.extractJs DEFAULTS (Js.initStateJs 0) 1
      [JsVal.num (-100), JsVal.num (-100)] JsVal.nan (JsVal.num 44100)).2.rms01
      = JsVal.nan := by
    unfold Js.extractJs
    rw [if_neg hg]
    dsimp only
    exact hmap
  exact ⟨h1, by rw [h1]; exact fun h => h⟩

/-! ### Schmitt-trigger onset (C4), over the canonical `updateOnset` -/

/-- C4: the `features.ts` onset detector is a Schmitt trigger over the
smoothed energy: with `thr = mean + onsetK·std` of the updated window, a
down flag turns on exactly when `energy > thr + hysteresis` (hence only when
energy exceeds the entry threshold), an up flag stays on exactly until
`energy < thr - hysteresis`, and any energy within the hysteresis band
leaves the flag unchanged — no single-frame flapping at the threshold. -/
theorem claim_C4_schmitt (K h : ℝ) (s : OnsetStateFT) (e : ℝ) (hh : 0 < h) :
    ((¬ s.onsetState) →
      ((updateOnsetFT K h s e).onsetState ↔ e > onsetThresholdFT K s e + h))
    ∧ (s.onsetState →
      ((updateOnsetFT K h s e).onsetState ↔ ¬ (e < onsetThresholdFT K s e - h)))
    ∧ ((¬ s.onsetState) → (updateOnsetFT K h s e).onsetState → e > onsetThresholdFT K s e)
    ∧ (onsetThresholdFT K s e - h ≤ e → e ≤ onsetThresholdFT K s e + h →
        ((updateOnsetFT K h s e).onsetState ↔ s.onsetState)) := by
  have hstate : (updateOnsetFT K h s e).onsetState
      = if s.onsetState then ¬(e < onsetThresholdFT K s e - h)
        else e > onsetThresholdFT K s e + h := by
    unfold updateOnsetFT
    rfl
  refine ⟨fun hs => ?_, fun hs => ?_, fun hs hon => ?_, fun hlo hhi => ?_⟩
  · rw [hstate, if_neg hs]
  · rw [hstate, if_pos hs]
  · rw [hstate, if_neg hs] at hon
    linarith
  · rw [hstate]
    by_cases hs : s.onsetState
    · rw [if_pos hs]
      exact iff_of_true (by linarith) hs
    · rw [if_neg hs]
      exact iff_of_false (by linarith) hs

/-- C4 witness: a flat energy history at 0 with the flag latched on and the
current energy inside the hysteresis band keeps the flag on. -/
theorem claim_C4_schmitt_witness :
    (0 : ℝ) < 3 / 100
    ∧ (updateOnsetFT (3 / 2) (3 / 100)
        ⟨4, [0, 0, 0, 0], 4, 0, True⟩ (0 : ℝ)).onsetState := by
  have hpush : onsetPushFT ⟨4, [0, 0, 0, 0], 4, 0, True⟩ (0 : ℝ) = ([0, 0, 0, 0], 4) := by
    unfold onsetPushFT
    norm_num
  have hm : onsetMeanFT [0, 0, 0, 0] 4 = 0 := by
    unfold onsetMeanFT
    norm_num
  have hstd : onsetStdFT [0, 0, 0, 0] 4 = 0 := by
    unfold onsetStdFT
    rw [hm]
    norm_num [Real.sqrt_zero]
  have hthr : onsetThresholdFT (3 / 2) ⟨4, [0, 0, 0, 0], 4, 0, True⟩ (0 : ℝ) = 0 := by
    unfold onsetThresholdFT
    rw [hpush]
    simp only []
    rw [hm, hstd]
    norm_num
  refine ⟨by norm_num, ?_⟩
  refine ((claim_C4_schmitt (3 / 2) (3 / 100) ⟨4, [0, 0, 0, 0], 4, 0, True⟩ 0
    (by norm_num)).2.2.2 ?_ ?_).mpr trivial
  · rw [hthr]; norm_num
  · rw [hthr]; norm_num

/-! ### Centroid and rolloff (C5) -/

theorem cumW_zero (l : List (ℝ × ℝ)) : cumW l 0 = 0 := by
  simp [cumW]

theorem cumF_zero (l : List (ℝ × ℝ)) : cumF l 0 = 0 := by
  simp [cumF]

theorem cumW_cons (p : ℝ × ℝ) (rest : List (ℝ × ℝ)) (k : ℕ) :
    cumW (p :: rest) (k + 1) = p.2 + cumW rest k := by
  simp [cumW, List.take_succ_cons]

theorem cumF_cons (p : ℝ × ℝ) (rest : List (ℝ × ℝ)) (k : ℕ) :
    cumF (p :: rest) (k + 1) = p.2 * p.1 + cumF rest k := by
  simp [cumF, List.take_succ_cons]

theorem hzAt_cons_succ (p : ℝ × ℝ) (rest : List (ℝ × ℝ)) (k : ℕ) :
    hzAt (p :: rest) (k + 1) = hzAt rest k := by
  simp [hzAt]

theorem hzAt_cons_zero (p : ℝ × ℝ) (rest : List (ℝ × ℝ)) :
    hzAt (p :: rest) 0 = p.1 := by
  simp [hzAt]

theorem crGo_eq (l : List (ℝ × ℝ)) (target wS fS cum roll : ℝ) :
    crGo l target wS fS cum roll =
      match (List.range l.length).find? (fun k => decide (target ≤ cum + cumW l (k + 1))) with
      | some k => (wS + cumW l (k + 1), fS + cumF l (k + 1), hzAt l k)
      | none => (wS + cumW l l.length, fS + cumF l l.length, roll) := by
  induction l generalizing target wS fS cum with
  | nil => simp [crGo, cumW, cumF]
  | cons p rest ih =>
    obtain ⟨hz, w⟩ := p
    rw [List.length_cons, List.range_succ_eq_map]
    by_cases h0 : target ≤ cum + w
    · rw [List.find?_cons_of_pos _ (by
        show decide (target ≤ cum + cumW ((hz, w) :: rest) (0 + 1)) = true
        rw [cumW_cons, cumW_zero]
        exact decide_eq_true (by linarith))]
      show crGo ((hz, w) :: rest) target wS fS cum roll = _
      rw [show crGo ((hz, w) :: rest) target wS fS cum roll
          = if target ≤ cum + w then (wS + w, fS + w * hz, hz)
            else crGo rest target (wS + w) (fS + w * hz) (cum + w) roll from rfl]
      rw [if_pos h0]
      simp [cumW_cons, cumW_zero, cumF_cons, cumF_zero, hzAt_cons_zero]
    · rw [List.find?_cons_of_neg _ (by
        show ¬ decide (target ≤ cum + cumW ((hz, w) :: rest) (0 + 1)) = true
        rw [cumW_cons, cumW_zero, decide_eq_true_eq]
        intro h
        exact h0 (by linarith))]
      rw [List.find?_map]
      have hpred : ((fun k => decide (target ≤ cum + cumW ((hz, w) :: rest) (k + 1)))
            ∘ Nat.succ)
          = fun k => decide (target ≤ (cum + w) + cumW rest (k + 1)) := by
        funext k
        show decide (target ≤ cum + cumW ((hz, w) :: rest) (k + 1 + 1)) = _
        refine decide_eq_decide.mpr ?_
        rw [cumW_cons]
        constructor <;> intro <;> linarith
      rw [hpred]
      rw [show crGo ((hz, w) :: rest) target wS fS cum roll
          = if target ≤ cum + w then (wS + w, fS + w * hz, hz)
            else crGo rest target (wS + w) (fS + w * hz) (cum + w) roll from rfl]
      rw [if_neg h0, ih]
      cases hfind : (List.range rest.length).find?
          (fun k => decide (target ≤ (cum + w) + cumW rest (k + 1))) with
      | none =>
        simp only [Option.map_none', List.length_cons]
        rw [cumW_cons, cumF_cons]
        simp [add_assoc]
      | some k =>
        simp only [Option.map_some']
        rw [cumW_cons, cumF_cons, hzAt_cons_succ]
        simp [add_assoc]

theorem centroidRolloffOf_eq_spec (fMinL fMaxL : ℝ) (w : List ℝ) :
    centroidRolloffOf fMinL fMaxL w = specCentroidRolloff fMinL fMaxL w := by
  unfold centroidRolloffOf specCentroidRolloff firstReachIdx
  dsimp only
  rw [crGo_eq]
  have hpred : (fun k => decide (0.85 * w.sum ≤ 0 + cumW (crPairs fMinL fMaxL w) (k + 1)))
      = fun k => decide (0.85 * w.sum ≤ cumW (crPairs fMinL fMaxL w) (k + 1)) := by
    funext k
    exact decide_eq_decide.mpr (by rw [zero_add])
  rw [hpred]
  cases hf : (List.range (crPairs fMinL fMaxL w).length).find?
      (fun k => decide (0.85 * w.sum ≤ cumW (crPairs fMinL fMaxL w) (k + 1))) with
  | none => simp
  | some k => simp

/-- C5 (amended): for every non-guarded call, `rolloffHz` is the frequency
of the first log bin at which the cumulative `binsLog` weight reaches 85% of
the total, and `centroidHz` is the weighted-average frequency over only the
prefix of bins up to and including that bin (zero when that prefix's weight
sum is zero) — not over all bins as originally claimed. -/
theorem claim_C5_centroid_rolloff (cfg : FeatureCfg) (s : ExtractState) (now : ℝ)
    (fftDb : List ℝ) (rmsDb sampleRate : ℝ) (r : ExtractState × FeaturesR)
    (hg : ¬ (fftDb.length = 0 ∨ sampleRate ≤ 0))
    (hr : r = extractR cfg s now fftDb rmsDb sampleRate) :
    r.2.centroidHz
      = (specCentroidRolloff (clampFMin cfg sampleRate) (clampFMax cfg sampleRate)
          (binsLogFull cfg s (max 1 (now - s.lastT)) fftDb sampleRate)).1
    ∧ r.2.rolloffHz
      = (specCentroidRolloff (clampFMin cfg sampleRate) (clampFMax cfg sampleRate)
          (binsLogFull cfg s (max 1 (now - s.lastT)) fftDb sampleRate)).2 := by
  subst hr
  unfold extractR
  rw [if_neg hg]
  dsimp only
  rw [centroidRolloffOf_eq_spec]
  exact ⟨rfl, rfl⟩

theorem zipWith_replicate_same (f : ℝ → ℝ → ℝ) (n : ℕ) (x y : ℝ) :
    List.zipWith f (List.replicate n x) (List.replicate n y) = List.replicate n (f x y) := by
  induction n with
  | zero => simp
  | succ m ih => simp [List.replicate_succ, ih]

theorem resample_const2 (cfg : FeatureCfg) (c sr : ℝ) (hsr : 0 < sr) :
    resampleLogBins cfg [c, c] sr = List.replicate cfg.logBins c := by
  unfold resampleLogBins
  dsimp only
  refine List.eq_replicate_iff.mpr ⟨by simp, ?_⟩
  intro b hb
  simp only [List.mem_map, List.mem_range] at hb
  obtain ⟨i, hi, rfl⟩ := hb
  have hx0 : 0 ≤ hzToFftIndex
      (hzOfBin (clampFMin cfg sr) (clampFMax cfg sr) cfg.logBins i)
      (List.length [c, c]) sr := by
    unfold hzToFftIndex
    dsimp only
    have hny : (0 : ℝ) < sr * 0.5 := by linarith
    refine mul_nonneg (div_nonneg (le_max_left _ _) hny.le) ?_
    rw [show List.length [c, c] = 2 from rfl]
    norm_num
  have hfl : (0 : ℤ) ≤ ⌊hzToFftIndex
      (hzOfBin (clampFMin cfg sr) (clampFMax cfg sr) cfg.logBins i)
      (List.length [c, c]) sr⌋ := Int.floor_nonneg.mpr hx0
  have hi0 : max 0 (min ((List.length [c, c] : ℤ) - 2)
      ⌊hzToFftIndex (hzOfBin (clampFMin cfg sr) (clampFMax cfg sr) cfg.logBins i)
        (List.length [c, c]) sr⌋) = 0 := by
    rw [show ((List.length [c, c] : ℤ)) - 2 = 0 by norm_num]
    rw [min_eq_left hfl]
    exact max_self 0
  rw [hi0]
  rw [show List.getD [c, c] ((0 : ℤ)).toNat 0 = c from rfl,
    show List.getD [c, c] (((0 : ℤ)).toNat + 1) 0 = c from rfl]
  push_cast
  ring

theorem smooth3_replicate (n : ℕ) (v a b c : ℝ) :
    smooth3 (List.replicate n v) a b c = List.replicate n (a * v + b * v + c * v) := by
  unfold smooth3
  dsimp only
  simp only [List.length_replicate]
  refine List.eq_replicate_iff.mpr ⟨by simp, ?_⟩
  intro x hx
  simp only [List.mem_map, List.mem_range] at hx
  obtain ⟨i, hi, rfl⟩ := hx
  have hn : 0 < n := lt_of_le_of_lt (Nat.zero_le i) hi
  have g : ∀ j, j < n → (List.replicate n v).getD j 0 = v := by
    intro j hj
    rw [List.getD_eq_getElem _ _ (by simpa using hj)]
    simp
  rw [g _ (Nat.mod_lt _ hn), g _ hi, g _ (Nat.mod_lt _ hn)]

theorem mapDb01_at_top : mapDb01 (-30) (-100) (-30) 1.3 = 1 := by
  unfold mapDb01 clamp01
  rw [show ((-30 : ℝ) - -100) / ((-30 : ℝ) - -100) = 1 by norm_num]
  rw [if_neg (by norm_num), if_neg (by norm_num)]
  exact Real.one_rpow _

theorem mapped_c8ex : mappedBinsOf cfg8ex [-30, -30] 44100 = List.replicate 8 1 := by
  unfold mappedBinsOf
  dsimp only
  rw [show cfg8ex.spatialSmooth = true from rfl, if_pos rfl]
  rw [resample_const2 cfg8ex (-30) 44100 (by norm_num)]
  rw [show cfg8ex.logBins = 8 from rfl]
  rw [show cfg8ex.k0 = (0.25 : ℝ) from rfl, show cfg8ex.k1 = (0.5 : ℝ) from rfl,
    show cfg8ex.k2 = (0.25 : ℝ) from rfl]
  rw [smooth3_replicate]
  rw [show (0.25 : ℝ) * (-30) + 0.5 * (-30) + 0.25 * (-30) = -30 by norm_num]
  rw [List.map_replicate]
  rw [show cfg8ex.dbMin = (-100 : ℝ) from rfl, show cfg8ex.dbMax = (-30 : ℝ) from rfl,
    show cfg8ex.dbGamma = (1.3 : ℝ) from rfl]
  rw [mapDb01_at_top]

theorem binsLogFull_c8ex : ∃ K : ℝ, 0 < K
    ∧ binsLogFull cfg8ex (initState 0) 1 [-30, -30] 44100 = List.replicate 8 K := by
  unfold binsLogFull baselineOf
  rw [mapped_c8ex]
  rw [show (initState 0).baseline = ([] : List ℝ) from rfl]
  rw [show fitArray [] (List.replicate 8 (1 : ℝ)).length = List.replicate 8 0 by
    unfold fitArray
    norm_num]
  unfold baselineNext binsLogOfParts
  rw [zipWith_replicate_same, zipWith_replicate_same]
  have hA1 : 1 - 1 / 1500 ≤ expCoeff 1 cfg8ex.baselineTauMs := by
    unfold expCoeff
    rw [show cfg8ex.baselineTauMs = (1500 : ℝ) from rfl,
      show max (1 : ℝ) 1500 = 1500 by norm_num]
    have h := Real.add_one_le_exp (-(1 : ℝ) / 1500)
    linarith
  have hA2 : expCoeff 1 cfg8ex.baselineTauMs ≤ 1 :=
    (expCoeff_bounds 1 _ (by norm_num)).2
  have hdpos : 0 < 1 - (0 * expCoeff 1 cfg8ex.baselineTauMs
      + 1 * (1 - expCoeff 1 cfg8ex.baselineTauMs)) - cfg8ex.deadband := by
    rw [show cfg8ex.deadband = (0.02 : ℝ) from rfl]
    nlinarith
  refine ⟨_, ?_, rfl⟩
  dsimp only
  rw [if_neg (not_lt.mpr hdpos.le)]
  have hden : 0 < cfg8ex.knee
      + (1 - (0 * expCoeff 1 cfg8ex.baselineTauMs
        + 1 * (1 - expCoeff 1 cfg8ex.baselineTauMs)) - cfg8ex.deadband) := by
    rw [show cfg8ex.knee = (0.2 : ℝ) from rfl]
    linarith
  exact mul_pos (div_pos hdpos hden) (div_pos hdpos hden)

theorem hz8 (i : ℕ) : hzOfBin 20 2560 8 i = 20 * 2 ^ i := by
  unfold hzOfBin
  rw [show (2560 : ℝ) / 20 = 128 by norm_num]
  rw [show (((8 : ℕ) : ℝ)) - 1 = 7 by norm_num]
  rw [show (128 : ℝ) = 2 ^ ((7 : ℕ) : ℝ) by rw [Real.rpow_natCast]; norm_num]
  rw [← Real.rpow_mul (by norm_num : (0 : ℝ) ≤ 2)]
  rw [show (((7 : ℕ) : ℝ)) * ((i : ℝ) / 7) = ((i : ℕ) : ℝ) by push_cast; field_simp]
  rw [Real.rpow_natCast]

theorem crEval8 (K : ℝ) (hK : 0 < K) :
    centroidRolloffOf 20 2560 (List.replicate 8 K) = (2540 / 7, 1280) := by
  have hpairs : crPairs 20 2560 (List.replicate 8 K)
      = [(hzOfBin 20 2560 8 0, K), (hzOfBin 20 2560 8 1, K), (hzOfBin 20 2560 8 2, K),
         (hzOfBin 20 2560 8 3, K), (hzOfBin 20 2560 8 4, K), (hzOfBin 20 2560 8 5, K),
         (hzOfBin 20 2560 8 6, K), (hzOfBin 20 2560 8 7, K)] := by
    unfold crPairs
    rfl
  have hS : (List.replicate 8 K).sum = 8 * K := by
    rw [show List.replicate 8 K = [K, K, K, K, K, K, K, K] from rfl]
    simp only [List.sum_cons, List.sum_nil]
    ring
  have hcr : crGo
      [(hzOfBin 20 2560 8 0, K), (hzOfBin 20 2560 8 1, K), (hzOfBin 20 2560 8 2, K),
       (hzOfBin 20 2560 8 3, K), (hzOfBin 20 2560 8 4, K), (hzOfBin 20 2560 8 5, K),
       (hzOfBin 20 2560 8 6, K), (hzOfBin 20 2560 8 7, K)]
      (0.85 * (8 * K)) 0 0 0 20
      = (0 + K + K + K + K + K + K + K,
         0 + K * hzOfBin 20 2560 8 0 + K * hzOfBin 20 2560 8 1 + K * hzOfBin 20 2560 8 2
           + K * hzOfBin 20 2560 8 3 + K * hzOfBin 20 2560 8 4 + K * hzOfBin 20 2560 8 5
           + K * hzOfBin 20 2560 8 6,
         hzOfBin 20 2560 8 6) := by
    simp only [crGo]
    rw [if_neg (by nlinarith), if_neg (by nlinarith), if_neg (by nlinarith),
      if_neg (by nlinarith), if_neg (by nlinarith), if_neg (by nlinarith),
      if_pos (by nlinarith)]
  unfold centroidRolloffOf
  dsimp only
  rw [hpairs, hS, hcr]
  dsimp only
  rw [if_pos (show (0 : ℝ) + K + K + K + K + K + K + K > 0 by nlinarith)]
  simp only [Prod.mk.injEq]
  constructor
  · rw [div_eq_div_iff (by nlinarith) (by norm_num)]
    simp only [hz8]
    ring
  · simp only [hz8]
    norm_num

theorem claimCentroid_eval8 (K : ℝ) (hK : 0 < K) :
    claimCentroid 20 2560 (List.replicate 8 K) = 1275 / 2 := by
  unfold claimCentroid
  rw [show (List.replicate 8 K).sum = 8 * K by
    rw [show List.replicate 8 K = [K, K, K, K, K, K, K, K] from rfl]
    simp only [List.sum_cons, List.sum_nil]
    ring]
  rw [if_neg (by intro h; nlinarith)]
  rw [show (List.range (List.replicate 8 K).length).map
      (fun i => (List.replicate 8 K).getD i 0 * hzOfBin 20 2560 (List.replicate 8 K).length i)
      = [K * hzOfBin 20 2560 8 0, K * hzOfBin 20 2560 8 1, K * hzOfBin 20 2560 8 2,
         K * hzOfBin 20 2560 8 3, K * hzOfBin 20 2560 8 4, K * hzOfBin 20 2560 8 5,
         K * hzOfBin 20 2560 8 6, K * hzOfBin 20 2560 8 7] from rfl]
  simp only [List.sum_cons, List.sum_nil, hz8]
  rw [div_eq_div_iff (by nlinarith) (by norm_num)]
  ring

theorem clampF_c8ex : clampFMin cfg8ex 44100 = 20 ∧ clampFMax cfg8ex 44100 = 2560 := by
  have hmax : clampFMax cfg8ex 44100 = 2560 := by
    unfold clampFMax
    rw [show cfg8ex.fMax = (2560 : ℝ) from rfl]
    norm_num
  refine ⟨?_, hmax⟩
  unfold clampFMin
  rw [hmax, show cfg8ex.fMin = (20 : ℝ) from rfl]
  norm_num

/-- C5 (counterexample): with `createFeatureExtractor({logBins: 8, fMax: 2560})`
and a constant −30 dB two-sample spectrum, every log bin carries the same
positive weight, the cumulative sum reaches 85% of the total at bin 6, and
the loop breaks there: the returned `centroidHz` is `2540/7` (≈ 362.9 Hz),
the weighted average of bins 0..6 only, whereas the weighted average over
ALL bins — what the claim asserts — is `1275/2` (= 637.5 Hz). -/
theorem claim_C5_counterexample :
    (extractR cfg8ex (initState 0) 1 [-30, -30] (-60) 44100).2.centroidHz = 2540 / 7
    ∧ claimCentroid (clampFMin cfg8ex 44100) (clampFMax cfg8ex 44100)
        ((extractR cfg8ex (initState 0) 1 [-30, -30] (-60) 44100).2.binsLog) = 1275 / 2
    ∧ (2540 / 7 : ℝ) ≠ 1275 / 2 := by
  have hg : ¬ ((([-30, -30] : List ℝ).length = 0) ∨ (44100 : ℝ) ≤ 0) := by
    push_neg
    exact ⟨by norm_num, by norm_num⟩
  obtain ⟨K, hK, hbl⟩ := binsLogFull_c8ex
  have hdt : max (1 : ℝ) (1 - (initState 0).lastT) = 1 := by
    rw [show (initState 0).lastT = (0 : ℝ) from rfl]
    norm_num
  have hcent : (extractR cfg8ex (initState 0) 1 [-30, -30] (-60) 44100).2.centroidHz
      = (centroidRolloffOf (clampFMin cfg8ex 44100) (clampFMax cfg8ex 44100)
          (binsLogFull cfg8ex (initState 0) (max 1 (1 - (initState 0).lastT))
            [-30, -30] 44100)).1 := by
    unfold extractR
    rw [if_neg hg]
  have hblproj : (extractR cfg8ex (initState 0) 1 [-30, -30] (-60) 44100).2.binsLog
      = binsLogFull cfg8ex (initState 0) (max 1 (1 - (initState 0).lastT))
          [-30, -30] 44100 := by
    unfold extractR
    rw [if_neg hg]
  rw [hcent, hblproj, hdt, hbl, clampF_c8ex.1, clampF_c8ex.2, crEval8 K hK,
    claimCentroid_eval8 K hK]
  exact ⟨rfl, rfl, by norm_num⟩

/-- C5 witness: the amended characterization at a concrete non-guarded
call. -/
theorem claim_C5_centroid_rolloff_witness :
    ¬ ((([-100, -100] : List ℝ).length = 0) ∨ (44100 : ℝ) ≤ 0)
    ∧ (extractR DEFAULTS (initState 0) 1 [-100, -100] (-60) 44100).2.centroidHz
      = (specCentroidRolloff (clampFMin DEFAULTS 44100) (clampFMax DEFAULTS 44100)
          (binsLogFull DEFAULTS (initState 0) (max 1 (1 - (initState 0).lastT))
            [-100, -100] 44100)).1 := by
  have hg : ¬ ((([-100, -100] : List ℝ).length = 0) ∨ (44100 : ℝ) ≤ 0) := by
    push_neg
    exact ⟨by norm_num, by norm_num⟩
  exact ⟨hg,
    (claim_C5_centroid_rolloff DEFAULTS (initState 0) 1 [-100, -100] (-60) 44100 _
      hg rfl).1⟩

end AV

end
